import Mathlib

/-!
Verification development for the anivia content-synchronization utility.

The repository synchronizes documents from a remote workspace (Notion) or
local Markdown files (Obsidian) into a relational backing store (Supabase),
rehosting embedded images into object storage (Cloudflare R2).

The development shallowly embeds the relevant TypeScript services:

* `CloudflareService` — two variants coexist in the repository:
  the legacy variant (`src/services/cloudflare.ts`) throws typed
  `CloudflareError`s which are caught per image inside `processImages`,
  and stores every image under the single key prefix `images/`;
  the newer variant (the one imported by the current `SyncService` and
  `ObsidianSyncService`) partitions storage keys by image role
  (`posts/`, `featured/`, `gallery/`) but calls `process.exit(1)` from its
  download / read / transcode / upload / head helpers on failure.
* `ImageProcessor` — `createImageMappings` and `replaceImageUrlsInMarkdown`
  (global textual substitution of each mapped locator).
* `SupabaseService` — again two variants: the legacy one keyed only by
  `notion_page_id` (table `anivia_notion_page`) and the newer one keyed by
  `slug` first, then by `(post_origin, identifier)` (table `sonder_post`).
* `SyncService.syncPage` — the legacy variant (no gates, always persists)
  and the newer variant (published gate, staleness check, force flag).
* `ObsidianSyncService.syncObsidianFile` plus the CLI batch loop.
* `NotionService.extractCategories` and the field-mapping table.

Modelling conventions:

* ISO-8601 timestamp strings are represented by their parsed epoch
  milliseconds (`Int`), since the code only ever compares
  `new Date(s).getTime()` values and copies the strings around verbatim.
* External I/O (HTTP fetch, local file read, MD5, WebP transcoding, object
  store head/put, git timestamps, the Notion→Markdown converter and the
  regex image extractor) is abstracted into oracle functions carried by an
  environment record; the decision logic, key construction, record
  construction and store updates are embedded directly from the source.
* `process.exit(1)` is modelled by the `ProcResult.exit` constructor; a
  computation that exits produces no value and no further effects.
* Fields that no claim reads and that feed only logging or human-facing
  object-store metadata (image `filename`, upload `Metadata`, the opaque
  `properties` pass-through, `handler`) are omitted from the embedded
  records; a comment marks each omission.
* JavaScript truthiness tests on optional strings (`if (img.cloudflareUrl)`)
  are modelled by `optTruthy`, which is false for both `none` and `some ""`.
-/

/-- Image role (`ImageType` in `types.ts`): `'markdown' | 'featured' | 'gallery'`. -/
inductive ImageType where
  | markdown
  | featured
  | gallery
deriving DecidableEq, Repr

/-- Image source (`ImageSource` in `types.ts`): `'notion' | 'local'`. -/
inductive ImageSource where
  | notion
  | local
deriving DecidableEq, Repr

/-- Document origin (`post_origin` column): `'notion' | 'obsidian'`. -/
inductive PostOrigin where
  | notion
  | obsidian
deriving DecidableEq, Repr

/-- Raw image bytes (a `Buffer` in the source). -/
abbrev Bytes := List Nat

/-- One embedded or metadata-referenced image (`AniviaImage` in `types.ts`).
The `filename` field is omitted: it feeds only log lines and the
human-diagnostic upload metadata, which are not modelled. -/
structure AniviaImage where
  url : String
  originalUrl : String
  hash : String
  cloudflareUrl : Option String := none
  type : ImageType
  source : ImageSource
deriving DecidableEq, Repr

/-- JavaScript truthiness of an optional string: `undefined`, `null` and
`''` are falsy; every non-empty string is truthy. -/
def optTruthy : Option String → Bool
  | some s => s ≠ ""
  | none => false

/-- Result of an S3 `HeadObjectCommand`: object found, 404 not-found, or
any other error (auth failure, network, ...). -/
inductive HeadRes where
  | found
  | notFound
  | fail
deriving DecidableEq, Repr

/-- A computation that either produces a value or terminates the whole
process (`process.exit(1)` in the source). -/
inductive ProcResult (α : Type) where
  | ok (a : α)
  | exit
deriving DecidableEq, Repr

/-- Environment of external effects for the image pipeline.  `fetchRemote`
is `fetch(url)` + `arrayBuffer`, `readLocal` is `fs.readFileSync`, `md5`
is `crypto.createHash('md5')...digest('hex')`, `webp` is the
`sharp(...).webp({quality: 85, effort: 4}).toBuffer()` transcode, `head`
is the object existence probe and `putOk` tells whether `PutObjectCommand`
succeeds for a key.  `publicUrl` is `config.publicUrl`. -/
structure ImageEnv where
  fetchRemote : String → Except Unit Bytes
  readLocal : String → Except Unit Bytes
  md5 : Bytes → String
  webp : Bytes → Except Unit Bytes
  head : String → HeadRes
  putOk : String → Bool
  publicUrl : String

/-- `CloudflareService.getImageDirectory` (newer variant): the storage
directory for each image role.  The TypeScript `default: 'images'` branch
is unreachable because `ImageType` has exactly these three values. -/
def getImageDirectory : ImageType → String
  | .markdown => "posts"
  | .featured => "featured"
  | .gallery => "gallery"

/-- Storage key of the newer variant: `` `${directory}/${hash}.webp` ``. -/
def imageKeyNew (t : ImageType) (h : String) : String :=
  getImageDirectory t ++ "/" ++ h ++ ".webp"

/-- Public URL of a stored object: `` `${config.publicUrl}/${key}` ``. -/
def imagePublicUrl (publicUrl key : String) : String :=
  publicUrl ++ "/" ++ key

/-- Byte fetch of the newer `processImages`:
`image.source === 'notion' ? downloadAndHashImage : readLocalFileAndHash`. -/
def fetchOf (env : ImageEnv) (img : AniviaImage) : Except Unit Bytes :=
  match img.source with
  | .notion => env.fetchRemote img.url
  | .local => env.readLocal img.url

/-- One image through the newer `CloudflareService` (per-image body of
`processImages`).  Every failure path of its helpers
(`downloadAndHashImage`, `readLocalFileAndHash`, `checkImageExists` on a
non-404 error, the `sharp` transcode, `PutObjectCommand`) calls
`process.exit(1)`, modelled by `.exit`.  The second component counts
actual uploads (`PutObjectCommand` sends). -/
def processOneNew (env : ImageEnv) (img : AniviaImage) :
    ProcResult (AniviaImage × Nat) :=
  match fetchOf env img with
  | .error _ => .exit
  | .ok bytes =>
    let contentHash := env.md5 bytes
    let imageWithHash := { img with hash := contentHash }
    let key := imageKeyNew img.type contentHash
    match env.head key with
    | .found =>
      .ok ({ imageWithHash with
              cloudflareUrl := some (imagePublicUrl env.publicUrl key) }, 0)
    | .fail => .exit
    | .notFound =>
      match env.webp bytes with
      | .error _ => .exit
      | .ok _ =>
        if env.putOk key then
          .ok ({ imageWithHash with
                  cloudflareUrl := some (imagePublicUrl env.publicUrl key) }, 1)
        else .exit

/-- Newer `CloudflareService.processImages`: fan out over all images and
join.  If any image's processing exits the process, the whole run exits
(`Promise.all` cannot complete once `process.exit(1)` fires). -/
def processImagesNew (env : ImageEnv) : List AniviaImage →
    ProcResult (List AniviaImage × Nat)
  | [] => .ok ([], 0)
  | img :: rest =>
    match processOneNew env img with
    | .exit => .exit
    | .ok (i, n) =>
      match processImagesNew env rest with
      | .exit => .exit
      | .ok (is, m) => .ok (i :: is, n + m)

/-- One image through the legacy `CloudflareService`
(`src/services/cloudflare.ts`).  Its helpers throw typed
`CloudflareError`s, which the per-image `try/catch` inside `processImages`
catches, logging and returning the ORIGINAL image object (hash and
`cloudflareUrl` untouched).  The storage key uses the single legacy prefix
`` `images/${hash}.webp` `` for every role.  The second component counts
uploads. -/
def processOneOld (env : ImageEnv) (img : AniviaImage) : AniviaImage × Nat :=
  match env.fetchRemote img.url with
  | .error _ => (img, 0)
  | .ok bytes =>
    let contentHash := env.md5 bytes
    let imageWithHash := { img with hash := contentHash }
    let key := "images/" ++ contentHash ++ ".webp"
    match env.head key with
    | .found =>
      ({ imageWithHash with
          cloudflareUrl := some (imagePublicUrl env.publicUrl key) }, 0)
    | .fail => (img, 0)
    | .notFound =>
      match env.webp bytes with
      | .error _ => (img, 0)
      | .ok _ =>
        if env.putOk key then
          ({ imageWithHash with
              cloudflareUrl := some (imagePublicUrl env.publicUrl key) }, 1)
        else (img, 0)

/-- Legacy `CloudflareService.processImages`: independent per-image
processing with the failure of one image contained to that image. -/
def processImagesOld (env : ImageEnv) (images : List AniviaImage) :
    List AniviaImage × Nat :=
  let processed := images.map (fun img => processOneOld env img)
  (processed.map Prod.fst, (processed.map Prod.snd).sum)

/-- ASCII lower-casing of one character.  JavaScript `toLowerCase` is
full Unicode, but every key comparison in the embedded code involves only
ASCII letters or CJK characters (on which lower-casing is the
identity). -/
def charLower (c : Char) : Char :=
  if 'A' ≤ c ∧ c ≤ 'Z' then Char.ofNat (c.toNat + 32) else c

/-- `String.prototype.toLowerCase` (ASCII fragment, see `charLower`). -/
def strLower (s : String) : String :=
  ⟨s.data.map charLower⟩

/-- Literal prefix test on character lists (the anchor step of a
`RegExp` scan whose pattern went through `escapeRegExp`, i.e. a literal
pattern). -/
def listPre : List Char → List Char → Bool
  | [], _ => true
  | _ :: _, [] => false
  | p :: ps, c :: cs => p = c && listPre ps cs

/-- Whether `pat` occurs as a contiguous substring of `s`. -/
def occursB (pat : List Char) : List Char → Bool
  | [] => pat.isEmpty
  | c :: cs => listPre pat (c :: cs) || occursB pat cs

/-- Left-to-right non-overlapping split of `s` at occurrences of `l`, the
decomposition performed implicitly by a global literal-pattern
`String.prototype.replace`.  For `l = []` no match is ever taken and the
result is `[s]`.  The `fuel` argument only makes the recursion structural
(each step consumes at least one character); it is initialised to
`s.length` by `splitOnL` and the `fuel = 0` fallback is unreachable. -/
def splitOnGo (l : List Char) : Nat → List Char → List (List Char)
  | _, [] => [[]]
  | 0, s => [s]
  | fuel + 1, c :: rest =>
    if l ≠ [] ∧ listPre l (c :: rest) then
      [] :: splitOnGo l fuel ((c :: rest).drop l.length)
    else
      match splitOnGo l fuel rest with
      | [] => [[c]]
      | p :: ps => (c :: p) :: ps

/-- Split at the full input length's worth of fuel. -/
def splitOnL (l s : List Char) : List (List Char) :=
  splitOnGo l s.length s

/-- Join chunks with a separator (`Array.prototype.join`). -/
def interAll (sep : List Char) : List (List Char) → List Char
  | [] => []
  | [p] => p
  | p :: ps => p ++ sep ++ interAll sep ps

/-- Global replacement of the literal pattern `l` by `u` in `s`:
the semantics of `s.replace(new RegExp(escapeRegExp(l), 'g'), u)` —
a left-to-right non-overlapping scan replacing every occurrence.
For `l = []` the model leaves `s` unchanged (a JavaScript empty-pattern
global regex instead inserts `u` at every position; locators in this
pipeline are never empty and every theorem below assumes `l ≠ ""`).
`fuel` is only a structural-termination device, initialised to
`s.length`; the `fuel = 0` fallback is unreachable. -/
def replAllGo (l u : List Char) : Nat → List Char → List Char
  | _, [] => []
  | 0, s => s
  | fuel + 1, c :: rest =>
    if l ≠ [] ∧ listPre l (c :: rest) then
      u ++ replAllGo l u fuel ((c :: rest).drop l.length)
    else
      c :: replAllGo l u fuel rest

/-- String wrapper for `replAllGo`. -/
def replAll (l u s : String) : String :=
  ⟨replAllGo l.data u.data s.data.length s.data⟩

/-- The dash-stripping of page ids: `pageId.replace` with a global
dash regex and an empty replacement. -/
def removeDashes (s : String) : String :=
  ⟨s.data.filter (fun c => c ≠ '-')⟩

/-- JavaScript `Map.prototype.set`: overwrite in place when the key is
already present (keeping its insertion position), append otherwise. -/
def mapSet (m : List (String × String)) (k v : String) : List (String × String) :=
  if m.any (fun p => p.fst = k) then
    m.map (fun p => if p.fst = k then (k, v) else p)
  else m ++ [(k, v)]

/-- Key membership in the insertion-ordered map model. -/
def mapHasKey (m : List (String × String)) (k : String) : Bool :=
  m.any (fun p => p.fst = k)

/-- `ImageProcessor.createImageMappings`: build the locator→URL map from
every processed image whose `cloudflareUrl` is truthy, keyed by `url` and
additionally by `originalUrl` when that is truthy and differs. -/
def createImageMappings (processedImages : List AniviaImage) :
    List (String × String) :=
  processedImages.foldl
    (fun imageMap img =>
      match img.cloudflareUrl with
      | some cf =>
        if cf ≠ "" then
          let m1 := mapSet imageMap img.url cf
          if img.originalUrl ≠ "" ∧ img.originalUrl ≠ img.url then
            mapSet m1 img.originalUrl cf
          else m1
        else imageMap
      | none => imageMap)
    []

/-- `ImageProcessor.replaceImageUrlsInMarkdown`: if the map is empty,
return the body unchanged; otherwise fold over the map entries in
insertion order, globally replacing each literal locator by its URL.
(The source's `beforeCount > 0` guard only skips an identity
replacement.) -/
def replaceImageUrlsInMarkdown (markdown : String)
    (imageMap : List (String × String)) : String :=
  if imageMap.isEmpty then markdown
  else imageMap.foldl
    (fun finalMarkdown kv => replAll kv.fst kv.snd finalMarkdown) markdown

/-- `path.basename`: the suffix after the last `/`.  (The node
trailing-slash normalisation is not modelled; the paths involved always
end in a file name.) -/
def basenameOf (p : String) : String :=
  ⟨(p.data.reverse.takeWhile (fun c => c ≠ '/')).reverse⟩

/-- `path.basename(filePath, '.md')` relative to `basenameOf`: strip a
trailing `.md`. -/
def stripMdExt (s : String) : String :=
  if listPre ".md".data.reverse s.data.reverse then
    ⟨(s.data.reverse.drop 3).reverse⟩
  else s

/-- Greedy span of characters other than `]` (the `[^\]]*` group). -/
def spanNotRB : List Char → List Char × List Char
  | [] => ([], [])
  | c :: rest =>
    if c = ']' then ([], c :: rest)
    else
      let (a, b) := spanNotRB rest
      (c :: a, b)

/-- Try to match `![alt](path)` at the head of `s` (the regex
`!\[([^\]]*)\]\(path\)` anchored at the current scan position); on
success return the captured `alt` and the total matched length
(always `alt.length + path.length + 5`). -/
def mdImgMatchLen (path : List Char) (s : List Char) :
    Option (List Char × Nat) :=
  match s with
  | '!' :: '[' :: t =>
    let (alt, t2) := spanNotRB t
    match t2 with
    | ']' :: '(' :: u =>
      if listPre path u then
        match u.drop path.length with
        | ')' :: _ => some (alt, alt.length + path.length + 5)
        | _ => none
      else none
    | _ => none
  | _ => none

/-- Global replacement of `![alt](path)` by `![alt](url)` (the second
pass of the Obsidian rewrite method of `ImageProcessor`, which keeps the
alt text through the `$1` back-reference).  The matched length returned
by `mdImgMatchLen` is always at least 5, so each step consumes at least
one character; `fuel` (initialised to the input length) only makes the
recursion structural and its zero fallback is unreachable. -/
def replMdPathGo (path url : List Char) : Nat → List Char → List Char
  | _, [] => []
  | 0, s => s
  | fuel + 1, c :: rest =>
    match mdImgMatchLen path (c :: rest) with
    | some (alt, n) =>
      ('!' :: '[' :: alt) ++ (']' :: '(' :: url) ++ [')'] ++
        replMdPathGo path url fuel ((c :: rest).drop (n.max 1))
    | none => c :: replMdPathGo path url fuel rest

/-- Wrapper supplying the fuel. -/
def replMdPath (path url s : List Char) : List Char :=
  replMdPathGo path url s.length s

/-- `ImageProcessor.replaceObsidianImageSyntax` (renamed: the original
method name is not available here): for each map entry, first replace the
wiki embed `![[basename]]` by `![](url)`, then replace standard-syntax
references `![alt](fullPath)` by `![alt](url)`. -/
def replaceObsidianImageEmbeds (markdown : String)
    (imageMap : List (String × String)) : String :=
  if imageMap.isEmpty then markdown
  else imageMap.foldl
    (fun finalMarkdown kv =>
      let localPath := kv.fst
      let cloudflareUrl := kv.snd
      let filename := basenameOf localPath
      let afterEmbed := replAll ("![[" ++ filename ++ "]]")
        ("![](" ++ cloudflareUrl ++ ")") finalMarkdown
      ⟨replMdPath localPath.data cloudflareUrl.data afterEmbed.data⟩)
    markdown

/-- The canonical in-flight document (`NotionPageData` in `types.ts`).
Timestamps are epoch milliseconds (see the header note).  The opaque
`properties` pass-through and the `images` diagnostic list are omitted
(no claim reads them; `images` is never persisted). -/
structure NotionPageData where
  id : String
  title : String
  content : String
  createdTime : Int
  lastEditedTime : Int
  slug : String
  handler : String
  published : Bool
  draft : Bool
  archived : Bool
  categories : List String
  tags : List String
  excerpt : String
  featuredImg : String
  galleryImgs : List String
  postOrigin : PostOrigin
  postType : String
deriving DecidableEq, Repr

/-- Per-document outcome (`SyncResult` in `types.ts`); the optional
`errors` list is omitted (never set by the embedded paths). -/
structure SyncResult where
  success : Bool
  pageId : String
  message : String
  imagesProcessed : Nat
  skipped : Bool := false
deriving DecidableEq, Repr

/-- A row of the legacy table `anivia_notion_page` (legacy
`SupabasePageRecord`); the opaque `properties` column is omitted. -/
structure RowA where
  id : Nat
  notion_page_id : String
  title : String
  content : String
  created_time : Int
  last_edited_time : Int
  handler : String
  published : Bool
  draft : Bool
  archived : Bool
  categories : List String
  tags : List String
  excerpt : String
  featured_img : String
  gallery_imgs : List String
  created_at : Int
  updated_at : Int
deriving DecidableEq, Repr

/-- The legacy backing store: the rows of `anivia_notion_page` plus the
`BIGSERIAL` counter. -/
structure StoreA where
  rows : List RowA
  nextId : Nat
deriving DecidableEq, Repr

/-- A row of the newer table `sonder_post` (newer `SupabasePageRecord`);
the opaque `properties` column is omitted. -/
structure RowB where
  id : Nat
  notion_page_id : String
  title : String
  content : String
  created_time : Int
  last_edited_time : Int
  slug : String
  published : Bool
  draft : Bool
  archived : Bool
  categories : List String
  tags : List String
  excerpt : String
  featured_img : String
  gallery_imgs : List String
  post_origin : PostOrigin
  post_type : String
  created_at : Int
  updated_at : Int
deriving DecidableEq, Repr

/-- The newer backing store: the rows of `sonder_post` plus the
`BIGSERIAL` counter. -/
structure StoreB where
  rows : List RowB
  nextId : Nat
deriving DecidableEq, Repr

/-- Legacy `SupabaseService.getPageById`: select a single row by
`notion_page_id`.  The PostgREST `.single()` call returns `null` on zero
rows; under the uniqueness hypotheses used below, `find?` coincides with
it. -/
def getPageByIdA (st : StoreA) (notionPageId : String) : Option RowA :=
  st.rows.find? (fun r => r.notion_page_id = notionPageId)

/-- The mutable field set written by the legacy `syncPageData` (its
`record` object); `created_at` is set only on insert and `id` never
changes. -/
def applyRecordA (now : Int) (pd : NotionPageData) (cleanPageId : String)
    (r : RowA) : RowA :=
  { r with
    notion_page_id := cleanPageId
    title := pd.title
    content := pd.content
    created_time := pd.createdTime
    last_edited_time := pd.lastEditedTime
    handler := pd.handler
    published := pd.published
    draft := pd.draft
    archived := pd.archived
    categories := pd.categories
    tags := pd.tags
    excerpt := pd.excerpt
    featured_img := pd.featuredImg
    gallery_imgs := pd.galleryImgs
    updated_at := now }

/-- A fresh `RowA` before the record fields are applied on insert. -/
def blankRowA (id : Nat) (now : Int) : RowA :=
  { id := id, notion_page_id := "", title := "", content := ""
    created_time := 0, last_edited_time := 0, handler := ""
    published := false, draft := false, archived := false
    categories := [], tags := [], excerpt := "", featured_img := ""
    gallery_imgs := [], created_at := now, updated_at := now }

/-- Legacy `SupabaseService.syncPageData`: strip dashes from the id, look
up by `notion_page_id`, then update the found row in place or insert a
new row (`created_at` stamped on insert). -/
def syncPageDataA (now : Int) (st : StoreA) (pd : NotionPageData) : StoreA :=
  let cleanPageId := removeDashes pd.id
  match getPageByIdA st cleanPageId with
  | some existingPage =>
    { st with rows := st.rows.map (fun r =>
        if r.id = existingPage.id then applyRecordA now pd cleanPageId r
        else r) }
  | none =>
    { st with
      rows := st.rows ++ [applyRecordA now pd cleanPageId (blankRowA st.nextId now)]
      nextId := st.nextId + 1 }

/-- Newer `SupabaseService.getPageBySlug`: select a single row by `slug`
alone (slug is globally unique across origins by intent). -/
def getPageBySlug (st : StoreB) (slug : String) : Option RowB :=
  st.rows.find? (fun r => r.slug = slug)

/-- The row predicate of the newer `getPageByOrigin` query:
`post_origin` matches and, depending on the origin, `notion_page_id` or
`slug` matches the identifier. -/
def originIdent (r : RowB) (postOrigin : PostOrigin) (identifier : String) :
    Bool :=
  r.post_origin = postOrigin &&
    (match postOrigin with
     | .notion => r.notion_page_id = identifier
     | .obsidian => r.slug = identifier)

/-- Newer `SupabaseService.getPageByOrigin`. -/
def getPageByOrigin (st : StoreB) (postOrigin : PostOrigin)
    (identifier : String) : Option RowB :=
  st.rows.find? (fun r => originIdent r postOrigin identifier)

/-- Newer `SupabaseService.getPageById` (backward-compatible wrapper). -/
def getPageByIdB (st : StoreB) (notionPageId : String) : Option RowB :=
  getPageByOrigin st .notion notionPageId

/-- The mutable field set written by the newer `syncPageData`;
`notion_page_id` is the clean id for Notion documents and `''` for
Obsidian ones; `created_at` is set only on insert and `id` never
changes. -/
def applyRecordB (now : Int) (pd : NotionPageData) (cleanPageId : String)
    (r : RowB) : RowB :=
  { r with
    notion_page_id := match pd.postOrigin with
                      | .notion => cleanPageId
                      | .obsidian => ""
    title := pd.title
    content := pd.content
    created_time := pd.createdTime
    last_edited_time := pd.lastEditedTime
    slug := pd.slug
    published := pd.published
    draft := pd.draft
    archived := pd.archived
    categories := pd.categories
    tags := pd.tags
    excerpt := pd.excerpt
    featured_img := pd.featuredImg
    gallery_imgs := pd.galleryImgs
    post_origin := pd.postOrigin
    post_type := pd.postType
    updated_at := now }

/-- A fresh `RowB` before the record fields are applied on insert. -/
def blankRowB (id : Nat) (now : Int) : RowB :=
  { id := id, notion_page_id := "", title := "", content := ""
    created_time := 0, last_edited_time := 0, slug := ""
    published := false, draft := false, archived := false
    categories := [], tags := [], excerpt := "", featured_img := ""
    gallery_imgs := [], post_origin := .notion, post_type := ""
    created_at := now, updated_at := now }

/-- The existing-record lookup of the newer `syncPageData`: by truthy
`slug` first, then by `(post_origin, identifier)`. -/
def lookupExistingB (st : StoreB) (pd : NotionPageData) : Option RowB :=
  let cleanPageId := removeDashes pd.id
  let bySlug := if pd.slug ≠ "" then getPageBySlug st pd.slug else none
  match bySlug with
  | some r => some r
  | none =>
    getPageByOrigin st pd.postOrigin
      (match pd.postOrigin with
       | .notion => cleanPageId
       | .obsidian => pd.slug)

/-- Newer `SupabaseService.syncPageData`: find an existing row (slug
first, then origin + identifier), then update it in place or insert a new
row. -/
def syncPageDataB (now : Int) (st : StoreB) (pd : NotionPageData) : StoreB :=
  let cleanPageId := removeDashes pd.id
  match lookupExistingB st pd with
  | some existingPage =>
    { st with rows := st.rows.map (fun r =>
        if r.id = existingPage.id then applyRecordB now pd cleanPageId r
        else r) }
  | none =>
    { st with
      rows := st.rows ++ [applyRecordB now pd cleanPageId (blankRowB st.nextId now)]
      nextId := st.nextId + 1 }

/-- `ImageProcessor.convertUrlsToAniviaImages` (remote images; the
generated diagnostic filename is omitted, see header). -/
def convertUrlsToAniviaImages (imageUrls : List String) (t : ImageType) :
    List AniviaImage :=
  imageUrls.map (fun url =>
    { url := url, originalUrl := url, hash := "", type := t
      source := ImageSource.notion })

/-- `ImageProcessor.convertLocalPathsToAniviaImages` (local images). -/
def convertLocalPathsToAniviaImages (imagePaths : List String)
    (t : ImageType) : List AniviaImage :=
  imagePaths.map (fun filePath =>
    { url := filePath, originalUrl := filePath, hash := "", type := t
      source := ImageSource.local })

/-- `x || ''` on an optional string (also maps `some ""` to `""`, which
is what the JavaScript expression produces). -/
def orEmptyStr : Option String → String
  | some u => u
  | none => ""

/-- `.map(img => img.cloudflareUrl).filter(url => !!url)`: project the
URLs and keep the truthy ones. -/
def truthyUrls (l : List (Option String)) : List String :=
  l.filterMap (fun o =>
    match o with
    | some u => if u ≠ "" then some u else none
    | none => none)

/-- External inputs of one `SyncService.syncPage` run.  `rawMarkdown` is
the output of `NotionMarkdownConverter.convertPageToMarkdown` (an
external API walk); `markdownImageUrls` is the value of the
`ImageProcessor` markdown-image extraction regex over `rawMarkdown` (a
deduplicated list of remote URLs in first-occurrence order; no claim
depends on the extraction itself, so it enters as an oracle); `now` is
the wall clock used for the `created_at` / `updated_at` stamps. -/
structure SyncEnv where
  imgEnv : ImageEnv
  rawMarkdown : String
  markdownImageUrls : List String
  now : Int

/-- Aggregate outcome of one newer-variant sync run: the returned
`SyncResult`, the backing store after the run, the number of object-store
uploads performed, and the number of backing-store writes (insert or
update calls). -/
structure SyncOut where
  result : SyncResult
  store : StoreB
  uploads : Nat
  writes : Nat
deriving DecidableEq, Repr

/-- The featured image object built by `syncPage` from
`pageData.featuredImg`. -/
def mkFeaturedImage (url : String) : AniviaImage :=
  { url := url, originalUrl := url, hash := ""
    type := ImageType.featured, source := ImageSource.notion }

/-- The gallery image objects built by `syncPage` from
`pageData.galleryImgs`. -/
def mkGalleryImages (urls : List String) : List AniviaImage :=
  urls.map (fun url =>
    { url := url, originalUrl := url, hash := ""
      type := ImageType.gallery, source := ImageSource.notion })

/-- The full image list assembled by `syncPage` (both variants):
markdown images, then the featured image when truthy, then the gallery
images. -/
def allImagesOf (env : SyncEnv) (pd : NotionPageData) : List AniviaImage :=
  convertUrlsToAniviaImages env.markdownImageUrls ImageType.markdown ++
    (if pd.featuredImg ≠ "" then [mkFeaturedImage pd.featuredImg] else []) ++
    mkGalleryImages pd.galleryImgs

/-- The `finalPageData` object assembled by the newer
`SyncService.syncPage` (its Step 5): featured image URL degraded to `''`
when unresolved, gallery reduced to the truthy resolved URLs, body
rewritten through the locator map, origin stamped `notion`. -/
def finalPageDataNew (env : SyncEnv) (pd : NotionPageData)
    (processedImages : List AniviaImage) : NotionPageData :=
  let processedMarkdownImages :=
    processedImages.filter (fun img => img.type = ImageType.markdown)
  let processedFeaturedImage :=
    processedImages.find? (fun img => img.type = ImageType.featured)
  let processedGalleryImages :=
    processedImages.filter (fun img => img.type = ImageType.gallery)
  let imageMap := createImageMappings processedMarkdownImages
  let finalMarkdown := replaceImageUrlsInMarkdown env.rawMarkdown imageMap
  { pd with
    featuredImg :=
      orEmptyStr (processedFeaturedImage.bind (fun img => img.cloudflareUrl))
    galleryImgs :=
      truthyUrls (processedGalleryImages.map (fun img => img.cloudflareUrl))
    content := finalMarkdown
    postOrigin := PostOrigin.notion }

/-- Steps 1–5 of the newer `SyncService.syncPage` after the gates:
convert (oracle), extract (oracle), upload via the newer
`CloudflareService`, split by role, rewrite the body, assemble
`finalPageData` and persist it through the newer `syncPageData`. -/
def syncPageNewBody (env : SyncEnv) (st : StoreB) (pd : NotionPageData) :
    ProcResult SyncOut :=
  match processImagesNew env.imgEnv (allImagesOf env pd) with
  | .exit => .exit
  | .ok (processedImages, uploads) =>
    .ok { result := { success := true, pageId := pd.id
                      message := "页面 " ++ pd.id ++ " 同步成功"
                      imagesProcessed :=
                        (processedImages.filter
                          (fun img => optTruthy img.cloudflareUrl)).length }
          store := syncPageDataB env.now st (finalPageDataNew env pd processedImages)
          uploads := uploads, writes := 1 }

/-- The newer `SyncService.syncPage` (the variant taking
`ignoreUpdateTime`): short-circuit to a skipped result when the document
is unpublished; otherwise look up the existing record by clean page id
and, unless `ignoreUpdateTime` is set, skip when the incoming
`lastEditedTime` is not strictly greater than the stored one; otherwise
run the body. -/
def syncPageNew (env : SyncEnv) (st : StoreB) (pd : NotionPageData)
    (ignoreUpdateTime : Bool) : ProcResult SyncOut :=
  let cleanPageId := removeDashes pd.id
  if pd.published = false then
    .ok { result := { success := true, pageId := pd.id
                      message := "跳过 (未发布)", imagesProcessed := 0
                      skipped := true }
          store := st, uploads := 0, writes := 0 }
  else
    match getPageByIdB st cleanPageId with
    | some existingPage =>
      if ignoreUpdateTime = false ∧
          pd.lastEditedTime ≤ existingPage.last_edited_time then
        .ok { result := { success := true, pageId := pd.id
                          message := "跳过 (未更新)", imagesProcessed := 0
                          skipped := true }
              store := st, uploads := 0, writes := 0 }
      else syncPageNewBody env st pd
    | none => syncPageNewBody env st pd

/-- Aggregate outcome of one legacy-variant sync run. -/
structure SyncOutA where
  result : SyncResult
  store : StoreA
  uploads : Nat
  writes : Nat
deriving DecidableEq, Repr

/-- The processed image list and upload count of the legacy
`SyncService.syncPage` (its Steps 3–5): the same image assembly as the
newer variant (the legacy `NotionImage` objects simply lack the `source`
field, which the legacy `CloudflareService` never reads), pushed through
the legacy `processImages`. -/
def processedImagesOldOf (env : SyncEnv) (pd : NotionPageData) :
    List AniviaImage × Nat :=
  processImagesOld env.imgEnv (allImagesOf env pd)

/-- The `finalPageData` object assembled by the legacy
`SyncService.syncPage` (its Step 7): featured image URL degraded to `''`
when unresolved, gallery reduced to the truthy resolved URLs, body
rewritten through the locator map. -/
def finalPageDataOld (env : SyncEnv) (pd : NotionPageData) : NotionPageData :=
  let processedImages := (processedImagesOldOf env pd).fst
  let processedMarkdownImages :=
    processedImages.filter (fun img => img.type = ImageType.markdown)
  let processedFeaturedImage :=
    processedImages.find? (fun img => img.type = ImageType.featured)
  let processedGalleryImages :=
    processedImages.filter (fun img => img.type = ImageType.gallery)
  let imageMap := createImageMappings processedMarkdownImages
  { pd with
    featuredImg :=
      orEmptyStr (processedFeaturedImage.bind (fun img => img.cloudflareUrl))
    galleryImgs :=
      truthyUrls (processedGalleryImages.map (fun img => img.cloudflareUrl))
    content := replaceImageUrlsInMarkdown env.rawMarkdown imageMap }

/-- The legacy `SyncService.syncPage` (`src/services/sync.ts`): no
published gate and no staleness check — it always runs the image pipeline
and persists through the legacy `syncPageData`. -/
def syncPageOld (env : SyncEnv) (st : StoreA) (pd : NotionPageData) :
    SyncOutA :=
  let processed := processedImagesOldOf env pd
  { result := { success := true, pageId := pd.id
                message := "🎉 页面 " ++ pd.id ++ " 同步成功"
                imagesProcessed :=
                  (processed.fst.filter
                    (fun img => optTruthy img.cloudflareUrl)).length }
    store := syncPageDataA env.now st (finalPageDataOld env pd)
    uploads := processed.snd
    writes := 1 }

/-- One front-matter value as far as `parseBooleanField` is concerned:
absent (including `undefined` and `null`), a string, or a boolean.
(Other YAML types are not modelled.) -/
inductive FMVal where
  | absent
  | str (s : String)
  | boolVal (b : Bool)
deriving DecidableEq, Repr

/-- `parseBooleanField` of `ObsidianSyncService.convertToNotionPageData`:
absent or `''` falls back to the default; a string compares its
lower-casing with `'true'`; a boolean passes through. -/
def parseBooleanField : FMVal → Bool → Bool
  | .absent, d => d
  | .str s, d => if s = "" then d else strLower s = "true"
  | .boolVal b, _ => b

/-- The front-matter fields read by the Obsidian sync path.  A missing or
falsy `slug` / `title` / `excerpt` / `post_type` is modelled by `""`;
`categories` / `tags` are `none` when the front-matter value is not an
array (`Array.isArray` guard).  The `notion_page_id` field is omitted (it
feeds only a diagnostic filename). -/
structure FrontMatter where
  slug : String
  title : String
  published : FMVal
  draft : FMVal
  archived : FMVal
  categories : Option (List String)
  tags : Option (List String)
  excerpt : String
  postTypeSnake : String
  postTypeCamel : String
deriving DecidableEq, Repr

/-- One Obsidian Markdown file together with the oracle values of its
filesystem/git-dependent preprocessing: `content` is the body after
`gray-matter` strips the front matter; `gitCreatedTime` /
`gitLastEditedTime` come from `getGitTimestamps` (git log, falling back
to filesystem times); `featuredImgPath` is the result of
`ObsidianService.extractFeaturedImage` (front-matter field, wiki-link
unwrap, path resolution and existence check); `markdownImagePaths` is the
result of `ImageProcessor.extractObsidianImagesFromMarkdown` (regex scan
plus existence checks). -/
structure ObsFile where
  filePath : String
  frontMatter : FrontMatter
  content : String
  gitCreatedTime : Int
  gitLastEditedTime : Int
  featuredImgPath : Option String
  markdownImagePaths : List String
  imgEnv : ImageEnv
  now : Int

/-- `ObsidianSyncService.convertToNotionPageData`: front matter to the
uniform document shape.  Title falls back to the file base name without
`.md`; the booleans go through `parseBooleanField` with default `false`;
`featuredImg` prefers the uploaded URL, then the original locator, then
`''`; Obsidian documents have no gallery and an empty `id`. -/
def convertToNotionPageData (f : ObsFile) (markdown : String)
    (featuredImage : Option AniviaImage) : NotionPageData :=
  let title := if f.frontMatter.title ≠ "" then f.frontMatter.title
               else stripMdExt (basenameOf f.filePath)
  let featuredImgUrl :=
    match featuredImage with
    | some img =>
      match img.cloudflareUrl with
      | some cf =>
        if cf ≠ "" then cf
        else if img.originalUrl ≠ "" then img.originalUrl else ""
      | none => if img.originalUrl ≠ "" then img.originalUrl else ""
    | none => ""
  { id := "", title := title, content := markdown
    createdTime := f.gitCreatedTime
    lastEditedTime := f.gitLastEditedTime
    slug := f.frontMatter.slug
    handler := ""
    published := parseBooleanField f.frontMatter.published false
    draft := parseBooleanField f.frontMatter.draft false
    archived := parseBooleanField f.frontMatter.archived false
    categories := f.frontMatter.categories.getD []
    tags := f.frontMatter.tags.getD []
    excerpt := f.frontMatter.excerpt
    featuredImg := featuredImgUrl
    galleryImgs := []
    postOrigin := PostOrigin.obsidian
    postType := if f.frontMatter.postTypeSnake ≠ "" then f.frontMatter.postTypeSnake
                else f.frontMatter.postTypeCamel }

/-- Steps 2–5 of `ObsidianSyncService.syncObsidianFile`: featured image
first, then the markdown images, uploaded through the newer
`CloudflareService`; the locator map is keyed by `originalUrl` for truthy
resolved URLs; the body goes through the Obsidian rewrite; the document
is persisted through the newer `syncPageData`.  The third component
counts backing-store writes. -/
def syncObsidianBody (f : ObsFile) (st : StoreB) :
    ProcResult (SyncResult × StoreB × Nat) :=
  let featuredImages :=
    match f.featuredImgPath with
    | some p => [{ url := p, originalUrl := p, hash := ""
                   type := ImageType.featured, source := ImageSource.local }]
    | none => []
  let markdownImages :=
    convertLocalPathsToAniviaImages f.markdownImagePaths ImageType.markdown
  match processImagesNew f.imgEnv (featuredImages ++ markdownImages) with
  | .exit => .exit
  | .ok (processedImages, _uploads) =>
    let imagesProcessed :=
      (processedImages.filter (fun img => optTruthy img.cloudflareUrl)).length
    let processedMarkdownImages :=
      processedImages.filter (fun img => img.type = ImageType.markdown)
    let processedFeaturedImage :=
      processedImages.find? (fun img => img.type = ImageType.featured)
    let imageMap := processedMarkdownImages.foldl
      (fun m img =>
        match img.cloudflareUrl with
        | some cf => if cf ≠ "" then mapSet m img.originalUrl cf else m
        | none => m) []
    let finalMarkdown := replaceObsidianImageEmbeds f.content imageMap
    let pageData := convertToNotionPageData f finalMarkdown processedFeaturedImage
    .ok ({ success := true, pageId := pageData.id
           message := "🎉 Obsidian 文件同步成功: " ++ basenameOf f.filePath
           imagesProcessed := imagesProcessed }
         , syncPageDataB f.now st pageData, 1)

/-- `ObsidianSyncService.syncObsidianFile`: skip (successfully) when the
front matter has no truthy `slug`; otherwise look up the existing record
by `(obsidian, slug)` and skip when the git timestamp is not strictly
newer; otherwise run the body.  There is no published gate on this path.
(The interpolated timestamps of the skip message are omitted.) -/
def syncObsidianFile (f : ObsFile) (st : StoreB) :
    ProcResult (SyncResult × StoreB × Nat) :=
  if f.frontMatter.slug = "" then
    .ok ({ success := true, pageId := ""
           message := "跳过文件（缺少 slug 字段）", imagesProcessed := 0
           skipped := true }, st, 0)
  else
    match getPageByOrigin st PostOrigin.obsidian f.frontMatter.slug with
    | some existingPage =>
      if f.gitLastEditedTime ≤ existingPage.last_edited_time then
        .ok ({ success := true, pageId := existingPage.notion_page_id
               message := "文件未更新，跳过同步", imagesProcessed := 0
               skipped := true }, st, 0)
      else syncObsidianBody f st
    | none => syncObsidianBody f st

/-- Tally of the `sync-obsidian` CLI batch loop. -/
structure ObsBatchOut where
  successCount : Nat
  skippedCount : Nat
  store : StoreB
deriving DecidableEq, Repr

/-- The `sync-obsidian` batch loop of the CLI: files strictly in
sequence; a skipped result increments the skipped tally, a non-skipped
success increments the success tally, and a failed result (or an exit
inside a sync) terminates the process. -/
def syncObsidianBatch : List ObsFile → StoreB → ProcResult ObsBatchOut
  | [], st => .ok { successCount := 0, skippedCount := 0, store := st }
  | f :: rest, st =>
    match syncObsidianFile f st with
    | .exit => .exit
    | .ok (result, st1, _) =>
      if result.success then
        match syncObsidianBatch rest st1 with
        | .exit => .exit
        | .ok out =>
          if result.skipped then
            .ok { out with skippedCount := out.skippedCount + 1 }
          else
            .ok { out with successCount := out.successCount + 1 }
      else .exit

/-- A Notion property value as far as the extractors read it:
`multi_select` always carries an array (truthy even when empty), `select`
may be `null` (`selectVal none`), and every other property type is
opaque. -/
inductive NotionPropValue where
  | multiSelect (names : List String)
  | selectVal (name : Option String)
  | richText (texts : List String)
  | checkboxVal (b : Bool)
  | otherProp
deriving DecidableEq, Repr

/-- `NotionService.extractCategories`: iterate over the property bag in
its own iteration order; at the first key whose lower-casing is
`categories` or `category`, or which equals `分类`, return the
multi-select names (or the single select name); a matching key whose
value has neither accepted shape does NOT return — the loop continues
with the remaining entries.  Unmatched bags yield `[]`. -/
def extractCategories : List (String × NotionPropValue) → List String
  | [] => []
  | (key, value) :: rest =>
    if strLower key = "categories" ∨ strLower key = "category" ∨ key = "分类" then
      match value with
      | .multiSelect names => names
      | .selectVal (some name) => [name]
      | _ => extractCategories rest
    else extractCategories rest

/-- Modelled from the spec: the resolution rule as the specification
words it — scan the candidate names in their declared order and, for the
first candidate that is present in the bag (case-insensitively) with a
value of the expected kind, return that value.  This definition follows
the spec's words (candidate order is the tie-break), NOT the source; it
exists to be compared against `extractCategories`. -/
def specCategoriesByCandidateOrder (candidateNames : List String)
    (props : List (String × NotionPropValue)) : List String :=
  match candidateNames with
  | [] => []
  | c :: cs =>
    match props.find? (fun kv => strLower kv.fst = strLower c) with
    | some (_, .multiSelect names) => names
    | some (_, .selectVal (some name)) => [name]
    | _ => specCategoriesByCandidateOrder cs props

/-- One entry of the field-mapping table (`FieldMapping` in the mapping
configuration file); `defaultValue`, `needsProcessing`, `processingType`
and `description` are metadata no claim reads and are omitted. -/
structure FieldMapping where
  notionPropertyNames : List String
  notionPropertyType : String
  supabaseField : String
  required : Bool
deriving DecidableEq, Repr

/-- The `FIELD_MAPPINGS` table. -/
def FIELD_MAPPINGS : List FieldMapping :=
  [ { notionPropertyNames := ["标题", "Title", "Name"]
      notionPropertyType := "title", supabaseField := "title"
      required := true }
  , { notionPropertyNames := ["handler", "Handler", "处理人"]
      notionPropertyType := "rich_text", supabaseField := "handler"
      required := false }
  , { notionPropertyNames := ["发布", "Published", "Publish"]
      notionPropertyType := "checkbox", supabaseField := "published"
      required := false }
  , { notionPropertyNames := ["categories", "Categories", "分类", "category", "Category"]
      notionPropertyType := "multi_select", supabaseField := "categories"
      required := false }
  , { notionPropertyNames := ["tags", "Tags", "标签"]
      notionPropertyType := "multi_select", supabaseField := "tags"
      required := false }
  , { notionPropertyNames := ["excerpt", "Excerpt", "摘要", "简介"]
      notionPropertyType := "rich_text", supabaseField := "excerpt"
      required := false }
  , { notionPropertyNames := ["配图", "Featured Image", "Cover"]
      notionPropertyType := "files", supabaseField := "featured_img"
      required := false }
  , { notionPropertyNames := ["组图", "Gallery", "Images", "图片集"]
      notionPropertyType := "files", supabaseField := "gallery_imgs"
      required := false }
  ]

/-- `findMappingByNotionProperty`: the first table entry one of whose
candidate names matches the given property name case-insensitively. -/
def findMappingByNotionProperty (propertyName : String) :
    Option FieldMapping :=
  FIELD_MAPPINGS.find? (fun mapping =>
    mapping.notionPropertyNames.any (fun name =>
      strLower name = strLower propertyName))

/-! ## Helper lemmas -/

/-- First character of a string. -/
def firstChar (s : String) : Option Char := s.data.head?

/-- Each storage role's key begins with the distinct first letter of its
directory. -/
theorem firstChar_imageKeyNew (t : ImageType) (h : String) :
    firstChar (imageKeyNew t h) =
      some (match t with
            | .markdown => 'p'
            | .featured => 'f'
            | .gallery => 'g') := by
  cases t <;> rfl

/-- Equal role-partitioned keys can only come from equal roles. -/
theorem imageKeyNew_type_eq (t1 t2 : ImageType) (h1 h2 : String)
    (heq : imageKeyNew t1 h1 = imageKeyNew t2 h2) : t1 = t2 := by
  have h := congrArg firstChar heq
  rw [firstChar_imageKeyNew, firstChar_imageKeyNew] at h
  cases t1 <;> cases t2 <;> simp_all

/-- The public URL determines the storage key (for a fixed configured
base URL). -/
theorem imagePublicUrl_key_inj (p k1 k2 : String)
    (h : imagePublicUrl p k1 = imagePublicUrl p k2) : k1 = k2 := by
  unfold imagePublicUrl at h
  have hd := congrArg String.data h
  simp only [String.data_append] at hd
  exact String.ext (List.append_cancel_left hd)

/-- In the newer pipeline, a successfully processed image carries exactly
the public URL of the role-partitioned content-addressed key — whether
the object already existed (head hit) or was uploaded. -/
theorem processOneNew_ok_url (env : ImageEnv) (img r : AniviaImage) (n : Nat)
    (b : Bytes) (hb : fetchOf env img = .ok b)
    (h : processOneNew env img = .ok (r, n)) :
    r.cloudflareUrl =
      some (imagePublicUrl env.publicUrl (imageKeyNew img.type (env.md5 b))) := by
  unfold processOneNew at h
  rw [hb] at h
  simp only at h
  split at h
  · simp only [ProcResult.ok.injEq, Prod.mk.injEq] at h
    rw [← h.1]
  · exact absurd h (by simp)
  · split at h
    · exact absurd h (by simp)
    · split at h
      · simp only [ProcResult.ok.injEq, Prod.mk.injEq] at h
        rw [← h.1]
      · exact absurd h (by simp)

/-! ## C2 — the unpublished gate -/

/-- C2 (amended): on the remote-document (Notion) path, a document with
`published = false` short-circuits to the skipped "未发布" result before
any backing-store lookup, with zero uploads and zero writes, for every
store, force flag and timestamp.  (The original claim also asserted this
for the local-file origin; `C2_counterexample` shows the Obsidian path
has no such gate.) -/
theorem C2_unpublished_gate_remote (env : SyncEnv) (st : StoreB)
    (pd : NotionPageData) (ignoreUpdateTime : Bool)
    (h : pd.published = false) :
    syncPageNew env st pd ignoreUpdateTime =
      .ok { result := { success := true, pageId := pd.id
                        message := "跳过 (未发布)", imagesProcessed := 0
                        skipped := true }
            store := st, uploads := 0, writes := 0 } := by
  simp [syncPageNew, h]

/-- An image environment in which every byte fetch fails; it is never
consulted by runs that carry no images. -/
def envNoImages : ImageEnv :=
  { fetchRemote := fun _ => .error (), readLocal := fun _ => .error ()
    md5 := fun _ => "h", webp := fun b => .ok b
    head := fun _ => .notFound, putOk := fun _ => true
    publicUrl := "https://cdn" }

/-- The empty newer-variant store. -/
def emptyStoreB : StoreB := { rows := [], nextId := 1 }

/-- A sync environment with no embedded images. -/
def syncEnvPlain : SyncEnv :=
  { imgEnv := envNoImages, rawMarkdown := "body"
    markdownImageUrls := [], now := 50 }

/-- An unpublished Notion document. -/
def pdUnpub : NotionPageData :=
  { id := "p-2", title := "T", content := "", createdTime := 1
    lastEditedTime := 10, slug := "", handler := "", published := false
    draft := false, archived := false, categories := [], tags := []
    excerpt := "", featuredImg := "", galleryImgs := []
    postOrigin := PostOrigin.notion, postType := "" }

/-- Witness for `C2_unpublished_gate_remote` at a concrete input (force
flag set, existing store empty). -/
theorem C2_witness :
    syncPageNew syncEnvPlain emptyStoreB pdUnpub true =
      .ok { result := { success := true, pageId := pdUnpub.id
                        message := "跳过 (未发布)", imagesProcessed := 0
                        skipped := true }
            store := emptyStoreB, uploads := 0, writes := 0 } :=
  C2_unpublished_gate_remote syncEnvPlain emptyStoreB pdUnpub true rfl

/-- An Obsidian file whose front matter has a slug but no `published`
field (so `published` parses to `false`) and no images. -/
def obsUnpubFile : ObsFile :=
  { filePath := "/vault/a.md"
    frontMatter := { slug := "x", title := "Hi", published := .absent
                     draft := .absent, archived := .absent
                     categories := none, tags := none, excerpt := ""
                     postTypeSnake := "", postTypeCamel := "" }
    content := "c", gitCreatedTime := 1, gitLastEditedTime := 2
    featuredImgPath := none, markdownImagePaths := []
    imgEnv := envNoImages, now := 9 }

/-- Projection: the `published` flags of the rows in the store produced
by an Obsidian sync run (`none` when the run exited). -/
def obsRowsPublished (p : ProcResult (SyncResult × StoreB × Nat)) :
    Option (List Bool) :=
  match p with
  | .ok (_, st, _) => some (st.rows.map (fun r => r.published))
  | .exit => none

/-- Projection: the number of backing-store writes of an Obsidian sync
run. -/
def obsWrites (p : ProcResult (SyncResult × StoreB × Nat)) : Option Nat :=
  match p with
  | .ok (_, _, w) => some w
  | .exit => none

/-- C2 counterexample: syncing a local-file (Obsidian) document with
`published = false` against an empty store performs one backing-store
write and CREATES a row (stored with `published = false`) — the
unpublished gate does not exist on the local-file origin, contradicting
the claim's "this holds for both remote-document and local-file
origins". -/
theorem C2_counterexample :
    obsRowsPublished (syncObsidianFile obsUnpubFile emptyStoreB) =
      some [false] ∧
    obsWrites (syncObsidianFile obsUnpubFile emptyStoreB) = some 1 := by
  constructor <;> rfl

/-! ## C3 — per-image failure containment -/

/-- C3 (amended, legacy variant): in the legacy `CloudflareService`
(`src/services/cloudflare.ts`), per-image processing is total and
independent: the output has one entry per input, each entry is the
independent processing of the corresponding input, and an image whose
byte fetch fails is returned unchanged (no `resolvedUrl`, no upload)
while the others are still processed. -/
theorem C3_legacy_failure_contained (env : ImageEnv)
    (images : List AniviaImage) :
    (processImagesOld env images).fst.length = images.length ∧
    (∀ j : Nat, (processImagesOld env images).fst[j]? =
        (images[j]?).map (fun i => (processOneOld env i).fst)) ∧
    (∀ img : AniviaImage, env.fetchRemote img.url = .error () →
        processOneOld env img = (img, 0)) := by
  refine ⟨?_, ?_, ?_⟩
  · simp [processImagesOld]
  · intro j
    simp only [processImagesOld, List.getElem?_map, Option.map_map]
    rfl
  · intro img hf
    unfold processOneOld
    rw [hf]

/-- An image environment in which exactly the locator
`https://s/bad.png` fails to fetch. -/
def envC3 : ImageEnv :=
  { fetchRemote := fun u => if u = "https://s/bad.png" then .error ()
                            else .ok [1]
    readLocal := fun _ => .error (), md5 := fun _ => "h3"
    webp := fun b => .ok b, head := fun _ => .notFound
    putOk := fun _ => true, publicUrl := "https://cdn" }

/-- The failing embedded image of the C3 batch. -/
def imgC3bad : AniviaImage :=
  { url := "https://s/bad.png", originalUrl := "https://s/bad.png"
    hash := "", type := ImageType.markdown, source := ImageSource.notion }

/-- A second embedded image of the C3 batch, fetchable. -/
def imgC3b : AniviaImage :=
  { url := "https://s/b.png", originalUrl := "https://s/b.png"
    hash := "", type := ImageType.markdown, source := ImageSource.notion }

/-- A third embedded image of the C3 batch, fetchable. -/
def imgC3c : AniviaImage :=
  { url := "https://s/c.png", originalUrl := "https://s/c.png"
    hash := "", type := ImageType.markdown, source := ImageSource.notion }

/-- C3 counterexample: in the newer `CloudflareService` (the variant the
current `SyncService` and `ObsidianSyncService` call), a batch of three
images in which ONE fetch fails terminates the whole process
(`downloadAndHashImage` calls `process.exit(1)`): no ref is returned
unchanged, the error does not stay contained to that image, and the
remaining images are not processed to completion. -/
theorem C3_counterexample :
    processImagesNew envC3 [imgC3bad, imgC3b, imgC3c] = .exit := rfl

/-- Witness for `C3_legacy_failure_contained` at the same concrete batch:
three images, the first fetch failing — the legacy pipeline returns three
entries and leaves the failing ref unchanged. -/
theorem C3_witness :
    (processImagesOld envC3 [imgC3bad, imgC3b, imgC3c]).fst.length = 3 ∧
    processOneOld envC3 imgC3bad = (imgC3bad, 0) :=
  ⟨(C3_legacy_failure_contained envC3 [imgC3bad, imgC3b, imgC3c]).1,
   (C3_legacy_failure_contained envC3 [imgC3bad, imgC3b, imgC3c]).2.2
     imgC3bad (by rfl)⟩

/-! ## C4 — role partitioning -/

/-- C4 (amended, newer variant): in the role-partitioned
`CloudflareService`, the storage key is the deterministic function
`imageKeyNew (role, fingerprint)` with distinct per-role prefixes
(`posts/`, `featured/`, `gallery/`), so two images with identical bytes
but different roles resolve to two distinct `resolvedUrl`s.  (The
original claim also covered the legacy variant: `C4_counterexample`
shows the legacy key construction ignores the role.) -/
theorem C4_role_partition_distinct_urls (env : ImageEnv)
    (img1 img2 r1 r2 : AniviaImage) (n1 n2 : Nat) (b : Bytes)
    (htype : img1.type ≠ img2.type)
    (hb1 : fetchOf env img1 = .ok b) (hb2 : fetchOf env img2 = .ok b)
    (h1 : processOneNew env img1 = .ok (r1, n1))
    (h2 : processOneNew env img2 = .ok (r2, n2)) :
    ∃ u1 u2, r1.cloudflareUrl = some u1 ∧ r2.cloudflareUrl = some u2 ∧
      u1 ≠ u2 := by
  have u1 := processOneNew_ok_url env img1 r1 n1 b hb1 h1
  have u2 := processOneNew_ok_url env img2 r2 n2 b hb2 h2
  refine ⟨_, _, u1, u2, ?_⟩
  intro hcontra
  exact htype (imageKeyNew_type_eq _ _ _ _ (imagePublicUrl_key_inj _ _ _ hcontra))

/-- An image environment with constant bytes and hash, empty bucket,
successful uploads. -/
def envC4 : ImageEnv :=
  { fetchRemote := fun _ => .ok [3], readLocal := fun _ => .error ()
    md5 := fun _ => "h4", webp := fun b => .ok b
    head := fun _ => .notFound, putOk := fun _ => true
    publicUrl := "https://cdn" }

/-- The C4 image in the embedded/markdown role. -/
def imgC4m : AniviaImage :=
  { url := "https://s/x.png", originalUrl := "https://s/x.png"
    hash := "", type := ImageType.markdown, source := ImageSource.notion }

/-- The same locator and bytes in the cover/featured role. -/
def imgC4f : AniviaImage :=
  { url := "https://s/x.png", originalUrl := "https://s/x.png"
    hash := "", type := ImageType.featured, source := ImageSource.notion }

/-- C4 counterexample: in the legacy `CloudflareService`
(`src/services/cloudflare.ts`, whose `checkImageExists` builds the key as
`` `images/${contentHash}.webp` ``), identical bytes under the two
different roles resolve to the SAME `resolvedUrl` — the per-role prefix
partitioning asserted by the claim does not hold in that variant. -/
theorem C4_counterexample :
    (processOneOld envC4 imgC4m).fst.cloudflareUrl =
      some "https://cdn/images/h4.webp" ∧
    (processOneOld envC4 imgC4f).fst.cloudflareUrl =
      some "https://cdn/images/h4.webp" := by
  constructor <;> rfl

/-- The resolved C4 image in the markdown role (newer variant). -/
def rC4m : AniviaImage :=
  { imgC4m with
    hash := "h4"
    cloudflareUrl := some "https://cdn/posts/h4.webp" }

/-- The resolved C4 image in the featured role (newer variant). -/
def rC4f : AniviaImage :=
  { imgC4f with
    hash := "h4"
    cloudflareUrl := some "https://cdn/featured/h4.webp" }

/-- Witness for `C4_role_partition_distinct_urls` at concrete inputs. -/
theorem C4_witness :
    ∃ u1 u2, rC4m.cloudflareUrl = some u1 ∧ rC4f.cloudflareUrl = some u2 ∧
      u1 ≠ u2 :=
  C4_role_partition_distinct_urls envC4 imgC4m imgC4f rC4m rC4f 1 1 [3]
    (by decide) rfl rfl rfl rfl

/-! ## C5 — content addressing -/

/-- C5: in the newer pipeline, the content fingerprint is `md5` of the
fetched bytes alone, so two images with identical bytes, the same role
and any locators resolve to the same `resolvedUrl`, namely the public
URL of the role-partitioned content-addressed key. -/
theorem C5_content_addressed_same_url (env : ImageEnv)
    (img1 img2 r1 r2 : AniviaImage) (n1 n2 : Nat) (b : Bytes)
    (htype : img1.type = img2.type)
    (hb1 : fetchOf env img1 = .ok b) (hb2 : fetchOf env img2 = .ok b)
    (h1 : processOneNew env img1 = .ok (r1, n1))
    (h2 : processOneNew env img2 = .ok (r2, n2)) :
    r1.cloudflareUrl = r2.cloudflareUrl ∧
    r1.cloudflareUrl =
      some (imagePublicUrl env.publicUrl (imageKeyNew img1.type (env.md5 b))) := by
  have u1 := processOneNew_ok_url env img1 r1 n1 b hb1 h1
  have u2 := processOneNew_ok_url env img2 r2 n2 b hb2 h2
  refine ⟨?_, u1⟩
  rw [u1, u2, htype]

/-- The C5 image at locator `https://s/a.png`. -/
def imgC5a : AniviaImage :=
  { url := "https://s/a.png", originalUrl := "https://s/a.png"
    hash := "", type := ImageType.markdown, source := ImageSource.notion }

/-- The C5 image at a different locator `https://s/b.png`. -/
def imgC5b : AniviaImage :=
  { url := "https://s/b.png", originalUrl := "https://s/b.png"
    hash := "", type := ImageType.markdown, source := ImageSource.notion }

/-- The resolved C5 image for the first locator. -/
def rC5a : AniviaImage :=
  { imgC5a with
    hash := "h4"
    cloudflareUrl := some "https://cdn/posts/h4.webp" }

/-- The resolved C5 image for the second locator. -/
def rC5b : AniviaImage :=
  { imgC5b with
    hash := "h4"
    cloudflareUrl := some "https://cdn/posts/h4.webp" }

/-- Witness for `C5_content_addressed_same_url` at concrete inputs:
different locators, identical bytes, same role — same URL. -/
theorem C5_witness :
    rC5a.cloudflareUrl = rC5b.cloudflareUrl ∧
    rC5a.cloudflareUrl =
      some (imagePublicUrl envC4.publicUrl
        (imageKeyNew imgC5a.type (envC4.md5 [3]))) :=
  C5_content_addressed_same_url envC4 imgC5a imgC5b rC5a rC5b 1 1 [3]
    rfl rfl rfl rfl rfl

/-! ## C7 — alias resolution order -/

/-- C7 (amended): `extractCategories` resolves by the property bag's own
iteration order: the first bag entry whose key matches one of the
candidate names (case-insensitively, or the exact `分类`) and whose value
has an accepted kind supplies the result; a matching key of the wrong
kind is passed over and scanning continues.  The declared candidate-name
order is NOT a tie-break between two present aliases. -/
theorem C7_bag_order_first_match (k : String) (v : NotionPropValue)
    (rest : List (String × NotionPropValue)) :
    (strLower k = "categories" ∨ strLower k = "category" ∨ k = "分类" →
      (∀ names, v = .multiSelect names →
          extractCategories ((k, v) :: rest) = names) ∧
      (∀ name, v = .selectVal (some name) →
          extractCategories ((k, v) :: rest) = [name]) ∧
      ((∀ names, v ≠ .multiSelect names) →
        (∀ name, v ≠ .selectVal (some name)) →
          extractCategories ((k, v) :: rest) = extractCategories rest)) ∧
    (¬(strLower k = "categories" ∨ strLower k = "category" ∨ k = "分类") →
      extractCategories ((k, v) :: rest) = extractCategories rest) := by
  constructor
  · intro hm
    refine ⟨?_, ?_, ?_⟩
    · rintro names rfl
      simp [extractCategories, hm]
    · rintro name rfl
      simp [extractCategories, hm]
    · intro hns hn
      cases v with
      | multiSelect names => exact absurd rfl (hns names)
      | selectVal o =>
        cases o with
        | some name => exact absurd rfl (hn name)
        | none => simp [extractCategories, hm]
      | richText texts => simp [extractCategories, hm]
      | checkboxVal b => simp [extractCategories, hm]
      | otherProp => simp [extractCategories, hm]
  · intro hm
    simp [extractCategories, hm]

/-- C7 counterexample: with the property bag iterating as
`Category ↦ ["乙"]`, `分类 ↦ ["甲"]`, the code returns the first bag
entry's value `["乙"]`, while resolution by the mapping table's declared
candidate order (`categories, Categories, 分类, category, Category` — the
third conjunct pins down the table entry) would return `["甲"]`: the
candidate order is not the tie-break the claim asserts. -/
theorem C7_counterexample :
    extractCategories
      [("Category", .multiSelect ["乙"]), ("分类", .multiSelect ["甲"])] =
      ["乙"] ∧
    specCategoriesByCandidateOrder
      ["categories", "Categories", "分类", "category", "Category"]
      [("Category", .multiSelect ["乙"]), ("分类", .multiSelect ["甲"])] =
      ["甲"] ∧
    (FIELD_MAPPINGS.find? (fun m => m.supabaseField = "categories")).map
      (fun m => m.notionPropertyNames) =
      some ["categories", "Categories", "分类", "category", "Category"] ∧
    (["乙"] : List String) ≠ ["甲"] := by
  refine ⟨by decide, by decide, by decide, by decide⟩

/-- Witness for `C7_bag_order_first_match` at a concrete bag: the head
entry wins with its multi-select value. -/
theorem C7_witness :
    extractCategories
      [("Category", .multiSelect ["乙"]), ("分类", .multiSelect ["甲"])] =
      ["乙"] :=
  ((C7_bag_order_first_match "Category" (.multiSelect ["乙"])
      [("分类", .multiSelect ["甲"])]).1 (by decide)).1 ["乙"] rfl

/-! ## C9 — missing natural key in a batch -/

/-- C9 (amended): a local Markdown file whose front matter has no truthy
`slug` is SKIPPED, not failed: `syncObsidianFile` returns a successful
skipped result with zero images and zero writes, leaving the store
unchanged, and the batch loop counts it in the skipped tally and
continues with the remaining files.  (The loop aborts the whole process
on a result with `success = false`; a missing slug never produces
one.) -/
theorem C9_missing_slug_skipped (f : ObsFile) (rest : List ObsFile)
    (st : StoreB) (h : f.frontMatter.slug = "") :
    syncObsidianFile f st =
      .ok ({ success := true, pageId := ""
             message := "跳过文件（缺少 slug 字段）", imagesProcessed := 0
             skipped := true }, st, 0) ∧
    syncObsidianBatch (f :: rest) st =
      (match syncObsidianBatch rest st with
       | .ok out => .ok { out with skippedCount := out.skippedCount + 1 }
       | .exit => .exit) := by
  have h1 : syncObsidianFile f st =
      .ok ({ success := true, pageId := ""
             message := "跳过文件（缺少 slug 字段）", imagesProcessed := 0
             skipped := true }, st, 0) := by
    simp [syncObsidianFile, h]
  refine ⟨h1, ?_⟩
  rw [syncObsidianBatch, h1]
  cases hb : syncObsidianBatch rest st <;> simp [hb]

/-- The C9 slug-less Obsidian file. -/
def obsNoSlugFile : ObsFile :=
  { obsUnpubFile with
    frontMatter := { obsUnpubFile.frontMatter with slug := "" } }

/-- C9 counterexample: a one-file batch whose file lacks a slug finishes
with zero successes, ONE SKIP (not a recorded failure — the loop has no
failure tally and would abort on failure), and an unchanged store. -/
theorem C9_counterexample :
    syncObsidianBatch [obsNoSlugFile] emptyStoreB =
      .ok { successCount := 0, skippedCount := 1, store := emptyStoreB } ∧
    (∃ r, syncObsidianFile obsNoSlugFile emptyStoreB =
        .ok (r, emptyStoreB, 0) ∧ r.success = true ∧ r.skipped = true) := by
  refine ⟨rfl, ⟨_, rfl, rfl, rfl⟩⟩

/-- Witness for `C9_missing_slug_skipped` at a concrete file and a
singleton remaining batch. -/
theorem C9_witness :
    syncObsidianFile obsNoSlugFile emptyStoreB =
      .ok ({ success := true, pageId := ""
             message := "跳过文件（缺少 slug 字段）", imagesProcessed := 0
             skipped := true }, emptyStoreB, 0) ∧
    syncObsidianBatch [obsNoSlugFile, obsUnpubFile] emptyStoreB =
      (match syncObsidianBatch [obsUnpubFile] emptyStoreB with
       | .ok out => .ok { out with skippedCount := out.skippedCount + 1 }
       | .exit => .exit) :=
  C9_missing_slug_skipped obsNoSlugFile [obsUnpubFile] emptyStoreB rfl

/-! ## C8 — force bypass -/

/-- The existing-record lookup of the newer `syncPageData` finds a row
whenever the Notion-origin lookup already found one (either the truthy
slug finds some row first, or the origin lookup repeats the hit). -/
theorem lookupExistingB_isSome_of_origin (st : StoreB) (pd : NotionPageData)
    (ex : RowB) (hpo : pd.postOrigin = PostOrigin.notion)
    (hex : getPageByOrigin st PostOrigin.notion (removeDashes pd.id) = some ex) :
    ∃ r2, lookupExistingB st pd = some r2 ∧ r2 ∈ st.rows := by
  unfold lookupExistingB
  by_cases hs : pd.slug ≠ ""
  · cases hbs : getPageBySlug st pd.slug with
    | some r =>
      refine ⟨r, by simp [hs, hbs], List.mem_of_find?_eq_some hbs⟩
    | none =>
      refine ⟨ex, ?_, List.mem_of_find?_eq_some hex⟩
      simp [hs, hbs, hpo, hex]
  · refine ⟨ex, ?_, List.mem_of_find?_eq_some hex⟩
    simp at hs
    simp [hs, hpo, hex]

/-- When the lookup finds a row, `syncPageData` UPDATES in place: the row
count is preserved and the rewritten row is in the store. -/
theorem syncPageDataB_update_shape (now : Int) (st : StoreB)
    (pd : NotionPageData) (r2 : RowB)
    (hfound : lookupExistingB st pd = some r2) (hr2 : r2 ∈ st.rows) :
    (syncPageDataB now st pd).rows.length = st.rows.length ∧
    applyRecordB now pd (removeDashes pd.id) r2 ∈ (syncPageDataB now st pd).rows := by
  unfold syncPageDataB
  rw [hfound]
  constructor
  · simp
  · have h : applyRecordB now pd (removeDashes pd.id) r2 =
        (fun r => if r.id = r2.id then applyRecordB now pd (removeDashes pd.id) r
                  else r) r2 := by
      simp
    rw [h]
    exact List.mem_map_of_mem _ hr2

/-- C8: with the force flag set, a published document whose clean page id
matches an existing record is never skipped — the staleness comparison is
bypassed (in particular when `lastModifiedAt` is merely equal) — and the
run performs exactly one backing-store write that REWRITES a row in place
(row count unchanged, and the store holds a row carrying the document's
natural key and `lastEditedTime`). -/
theorem C8_force_bypass_updates (env : SyncEnv) (st : StoreB)
    (pd : NotionPageData) (out : SyncOut) (ex : RowB)
    (hpub : pd.published = true)
    (hex : getPageByIdB st (removeDashes pd.id) = some ex)
    (_heq : pd.lastEditedTime = ex.last_edited_time)
    (hrun : syncPageNew env st pd true = .ok out) :
    out.result.skipped = false ∧ out.result.success = true ∧
    out.writes = 1 ∧
    out.store.rows.length = st.rows.length ∧
    ∃ r ∈ out.store.rows,
      r.notion_page_id = removeDashes pd.id ∧
      r.last_edited_time = pd.lastEditedTime := by
  unfold syncPageNew at hrun
  simp only [hpub] at hrun
  rw [hex] at hrun
  simp at hrun
  unfold syncPageNewBody at hrun
  cases hpi : processImagesNew env.imgEnv (allImagesOf env pd) with
  | exit =>
    rw [hpi] at hrun
    exact absurd hrun (by simp)
  | ok pr =>
    obtain ⟨proc, ups⟩ := pr
    rw [hpi] at hrun
    simp only [ProcResult.ok.injEq] at hrun
    subst hrun
    obtain ⟨r2, hfound, hmem⟩ :=
      lookupExistingB_isSome_of_origin st (finalPageDataNew env pd proc) ex rfl hex
    refine ⟨rfl, rfl, rfl, ?_, ?_⟩
    · exact (syncPageDataB_update_shape env.now st
        (finalPageDataNew env pd proc) r2 hfound hmem).1
    · exact ⟨applyRecordB env.now (finalPageDataNew env pd proc)
          (removeDashes pd.id) r2,
        (syncPageDataB_update_shape env.now st
          (finalPageDataNew env pd proc) r2 hfound hmem).2, rfl, rfl⟩

/-- The pre-existing C8 row: same clean page id, same timestamp as the
incoming document. -/
def rowC8 : RowB :=
  { id := 1, notion_page_id := "p1", title := "T", content := "old"
    created_time := 1, last_edited_time := 10, slug := ""
    published := true, draft := false, archived := false
    categories := [], tags := [], excerpt := "", featured_img := ""
    gallery_imgs := [], post_origin := PostOrigin.notion, post_type := ""
    created_at := 3, updated_at := 3 }

/-- Store holding only the C8 row. -/
def stC8 : StoreB := { rows := [rowC8], nextId := 2 }

/-- The incoming C8 document: published, equal `lastEditedTime`, no
images. -/
def pdC8 : NotionPageData :=
  { id := "p-1", title := "T2", content := "", createdTime := 1
    lastEditedTime := 10, slug := "", handler := "", published := true
    draft := false, archived := false, categories := [], tags := []
    excerpt := "", featuredImg := "", galleryImgs := []
    postOrigin := PostOrigin.notion, postType := "" }

/-- The concrete C8 run outcome (the fallback branch is unreachable). -/
def outC8 : SyncOut :=
  match syncPageNew syncEnvPlain stC8 pdC8 true with
  | .ok o => o
  | .exit => { result := { success := false, pageId := "", message := ""
                           imagesProcessed := 0 }
               store := stC8, uploads := 0, writes := 0 }

/-- Witness for `C8_force_bypass_updates` at the concrete equal-timestamp
forced run. -/
theorem C8_witness :
    outC8.result.skipped = false ∧ outC8.result.success = true ∧
    outC8.writes = 1 ∧
    outC8.store.rows.length = stC8.rows.length ∧
    ∃ r ∈ outC8.store.rows,
      r.notion_page_id = removeDashes pdC8.id ∧
      r.last_edited_time = pdC8.lastEditedTime :=
  C8_force_bypass_updates syncEnvPlain stC8 pdC8 outC8 rowC8 rfl rfl rfl rfl

/-! ## C10 — metadata image degradation -/

/-- A fetch failure makes the legacy per-image processing return the
original image object with no upload. -/
theorem processOneOld_fetch_error (env : ImageEnv) (img : AniviaImage)
    (hf : env.fetchRemote img.url = .error ()) :
    processOneOld env img = (img, 0) := by
  unfold processOneOld
  rw [hf]

/-- Legacy per-image processing preserves the image role. -/
theorem processOneOld_type_fst (env : ImageEnv) (img : AniviaImage) :
    (processOneOld env img).fst.type = img.type := by
  unfold processOneOld
  dsimp only
  repeat' split
  all_goals rfl

/-- A list is a literal prefix of itself followed by anything. -/
theorem listPre_append_self (l m : List Char) : listPre l (l ++ m) = true := by
  induction l with
  | nil => rfl
  | cons c cs ih => simp [listPre, ih]

/-- Every public object URL starts with the configured base URL and a
slash. -/
theorem listPre_imagePublicUrl (p k : String) :
    listPre (p ++ "/").data (imagePublicUrl p k).data = true := by
  unfold imagePublicUrl
  rw [String.data_append]
  exact listPre_append_self _ _

/-- Legacy per-image processing either leaves `cloudflareUrl` unchanged
or sets it to a public object URL. -/
theorem processOneOld_url_cases (env : ImageEnv) (img : AniviaImage) :
    (processOneOld env img).fst.cloudflareUrl = img.cloudflareUrl ∨
    ∃ k, (processOneOld env img).fst.cloudflareUrl =
      some (imagePublicUrl env.publicUrl k) := by
  unfold processOneOld
  dsimp only
  repeat' split
  all_goals simp

/-- A resolved URL produced from an initially unresolved image always
carries the public base-URL prefix. -/
theorem processOneOld_url_pre (env : ImageEnv) (img : AniviaImage)
    (h0 : img.cloudflareUrl = none) (u : String)
    (hu : (processOneOld env img).fst.cloudflareUrl = some u) :
    listPre (env.publicUrl ++ "/").data u.data = true := by
  rcases processOneOld_url_cases env img with hc | ⟨k, hc⟩
  · rw [hc, h0] at hu
    exact absurd hu (by simp)
  · rw [hc] at hu
    rw [← Option.some.inj hu]
    exact listPre_imagePublicUrl _ _

/-- Every image assembled by `syncPage` starts with no resolved URL. -/
theorem allImagesOf_cloudflareUrl_none (env : SyncEnv) (pd : NotionPageData) :
    ∀ i ∈ allImagesOf env pd, i.cloudflareUrl = none := by
  intro i hi
  unfold allImagesOf at hi
  rcases List.mem_append.mp hi with h12 | h3
  · rcases List.mem_append.mp h12 with h1 | h2
    · obtain ⟨u, _, rfl⟩ := List.mem_map.mp h1
      rfl
    · split at h2
      · rcases List.mem_singleton.mp h2 with rfl
        rfl
      · exact absurd h2 (List.not_mem_nil i)
  · obtain ⟨u, _, rfl⟩ := List.mem_map.mp h3
    rfl

/-- The processed list of the legacy pipeline is the pointwise legacy
processing of the assembled images. -/
theorem processedImagesOldOf_fst (env : SyncEnv) (pd : NotionPageData) :
    (processedImagesOldOf env pd).fst =
      (allImagesOf env pd).map (fun i => (processOneOld env.imgEnv i).fst) := by
  simp [processedImagesOldOf, processImagesOld, Function.comp]

/-- With a truthy cover URL, the featured-image search over the processed
list finds exactly the processed cover image (the markdown images keep
their role and are passed over). -/
theorem processedOld_find_featured (env : SyncEnv) (pd : NotionPageData)
    (hfi : pd.featuredImg ≠ "") :
    ((allImagesOf env pd).map (fun i => (processOneOld env.imgEnv i).fst)).find?
        (fun img => img.type = ImageType.featured) =
      some (processOneOld env.imgEnv (mkFeaturedImage pd.featuredImg)).fst := by
  unfold allImagesOf
  rw [if_pos hfi, List.append_assoc, List.map_append, List.find?_append]
  have h1 : ((convertUrlsToAniviaImages env.markdownImageUrls ImageType.markdown).map
      (fun i => (processOneOld env.imgEnv i).fst)).find?
      (fun img => img.type = ImageType.featured) = none := by
    apply List.find?_eq_none.mpr
    intro x hx
    obtain ⟨i, hi, rfl⟩ := List.mem_map.mp hx
    obtain ⟨u, _, rfl⟩ := List.mem_map.mp hi
    simp [processOneOld_type_fst]
  rw [h1, List.map_append, List.find?_append]
  simp [List.find?, mkFeaturedImage, processOneOld_type_fst]

/-- C10: in the legacy remote-document sync (the variant whose per-image
failures are contained, so a failed image can reach persistence), a
cover-image fetch failure degrades the persisted `featured_img` to the
empty string (the source cover URL is discarded), and a failed gallery
image is dropped from the persisted `gallery_imgs` array rather than kept
as its source URL: against a store with no record for the document's
natural key, the inserted row carries `featured_img = ""` and does not
contain the failed gallery locator. -/
theorem C10_metadata_images_not_degraded (env : SyncEnv) (st : StoreA)
    (pd : NotionPageData) (g : String)
    (hfi : pd.featuredImg ≠ "")
    (hff : env.imgEnv.fetchRemote pd.featuredImg = .error ())
    (hg : g ∈ pd.galleryImgs)
    (hgf : env.imgEnv.fetchRemote g = .error ())
    (hgp : listPre (env.imgEnv.publicUrl ++ "/").data g.data = false)
    (hfresh : getPageByIdA st (removeDashes pd.id) = none) :
    (finalPageDataOld env pd).featuredImg = "" ∧
    g ∉ (finalPageDataOld env pd).galleryImgs ∧
    ∃ r ∈ (syncPageOld env st pd).store.rows,
      r.notion_page_id = removeDashes pd.id ∧ r.featured_img = "" ∧
      g ∉ r.gallery_imgs := by
  have hfeat : (finalPageDataOld env pd).featuredImg = "" := by
    unfold finalPageDataOld
    dsimp only
    rw [processedImagesOldOf_fst, processedOld_find_featured env pd hfi]
    rw [processOneOld_fetch_error env.imgEnv (mkFeaturedImage pd.featuredImg) hff]
    rfl
  have hgal : g ∉ (finalPageDataOld env pd).galleryImgs := by
    intro hgmem
    unfold finalPageDataOld at hgmem
    dsimp only at hgmem
    unfold truthyUrls at hgmem
    obtain ⟨o, ho, hfo⟩ := List.mem_filterMap.mp hgmem
    cases o with
    | none => exact absurd hfo (by simp)
    | some v =>
      have hv : v = g := by
        by_cases hne : v ≠ "" <;> simp [hne] at hfo
        exact hfo
      subst hv
      obtain ⟨x, hx, hxo⟩ := List.mem_map.mp ho
      have hxp : x ∈ (processedImagesOldOf env pd).fst := List.mem_of_mem_filter hx
      rw [processedImagesOldOf_fst] at hxp
      obtain ⟨i, hi, rfl⟩ := List.mem_map.mp hxp
      have h0 := allImagesOf_cloudflareUrl_none env pd i hi
      have hpre := processOneOld_url_pre env.imgEnv i h0 v hxo
      rw [hpre] at hgp
      simp at hgp
  refine ⟨hfeat, hgal, ?_⟩
  show ∃ r ∈ (syncPageDataA env.now st (finalPageDataOld env pd)).rows, _
  unfold syncPageDataA
  dsimp only
  rw [show removeDashes (finalPageDataOld env pd).id = removeDashes pd.id from rfl,
    hfresh]
  refine ⟨applyRecordA env.now (finalPageDataOld env pd) (removeDashes pd.id)
      (blankRowA st.nextId env.now), ?_, rfl, ?_, ?_⟩
  · exact List.mem_append_right _ (List.mem_singleton.mpr rfl)
  · exact hfeat
  · exact hgal

/-- The C10 image environment: the cover and the first gallery locator
fail to fetch, everything else succeeds and uploads. -/
def envC10 : ImageEnv :=
  { fetchRemote := fun u =>
      if u = "https://s/cover.png" ∨ u = "https://s/g1.png" then .error ()
      else .ok [5]
    readLocal := fun _ => .error (), md5 := fun _ => "hA"
    webp := fun b => .ok b, head := fun _ => .notFound
    putOk := fun _ => true, publicUrl := "https://cdn" }

/-- The C10 sync environment (no embedded markdown images). -/
def senvC10 : SyncEnv :=
  { imgEnv := envC10, rawMarkdown := "body", markdownImageUrls := [], now := 7 }

/-- The C10 document: a cover image and two gallery images. -/
def pdC10 : NotionPageData :=
  { id := "p-9", title := "T", content := "", createdTime := 1
    lastEditedTime := 5, slug := "", handler := "", published := true
    draft := false, archived := false, categories := [], tags := []
    excerpt := "", featuredImg := "https://s/cover.png"
    galleryImgs := ["https://s/g1.png", "https://s/g2.png"]
    postOrigin := PostOrigin.notion, postType := "" }

/-- The empty legacy store. -/
def stC10 : StoreA := { rows := [], nextId := 1 }

/-- Witness for `C10_metadata_images_not_degraded` at the concrete run:
cover fetch fails, gallery image 1 fails, gallery image 2 succeeds. -/
theorem C10_witness :
    (finalPageDataOld senvC10 pdC10).featuredImg = "" ∧
    "https://s/g1.png" ∉ (finalPageDataOld senvC10 pdC10).galleryImgs ∧
    ∃ r ∈ (syncPageOld senvC10 stC10 pdC10).store.rows,
      r.notion_page_id = removeDashes pdC10.id ∧ r.featured_img = "" ∧
      "https://s/g1.png" ∉ r.gallery_imgs :=
  C10_metadata_images_not_degraded senvC10 stC10 pdC10 "https://s/g1.png"
    (by decide) rfl (by decide) rfl (by decide) rfl

/-! ## C1 — staleness skip and idempotence -/

/-- The predicate holds at the element returned by `find?` (explicit
form, stated to guide unification). -/
theorem find?_pred {α : Type} (p : α → Bool) (l : List α) (a : α)
    (h : l.find? p = some a) : p a = true :=
  List.find?_some h

/-- If the write-time lookup finds nothing, then in particular the
Notion-origin lookup finds nothing. -/
theorem lookupExistingB_none_origin (st : StoreB) (pd : NotionPageData)
    (hpo : pd.postOrigin = PostOrigin.notion)
    (hlk : lookupExistingB st pd = none) :
    getPageByOrigin st PostOrigin.notion (removeDashes pd.id) = none := by
  unfold lookupExistingB at hlk
  rw [hpo] at hlk
  dsimp only at hlk
  by_cases hs : pd.slug = ""
  · simp only [hs, ne_eq, not_true_eq_false, if_false] at hlk
    exact hlk
  · simp only [ne_eq, hs, not_false_eq_true, if_true] at hlk
    cases hbs : getPageBySlug st pd.slug with
    | some r =>
      rw [hbs] at hlk
      exact absurd hlk (by simp)
    | none =>
      rw [hbs] at hlk
      exact hlk

/-- A row found by the write-time lookup is in the store and — under the
slug-coherence hypothesis — matches the document's natural key. -/
theorem lookupExistingB_some_mem (st : StoreB) (pd : NotionPageData)
    (rX : RowB) (hpo : pd.postOrigin = PostOrigin.notion)
    (Hslug : pd.slug ≠ "" → ∀ r ∈ st.rows, r.slug = pd.slug →
      originIdent r PostOrigin.notion (removeDashes pd.id) = true)
    (hlk : lookupExistingB st pd = some rX) :
    rX ∈ st.rows ∧
    originIdent rX PostOrigin.notion (removeDashes pd.id) = true := by
  unfold lookupExistingB at hlk
  rw [hpo] at hlk
  dsimp only at hlk
  by_cases hs : pd.slug = ""
  · simp only [hs, ne_eq, not_true_eq_false, if_false] at hlk
    unfold getPageByOrigin at hlk
    refine ⟨List.mem_of_find?_eq_some hlk, ?_⟩
    exact find?_pred (fun r => originIdent r PostOrigin.notion (removeDashes pd.id))
      st.rows rX hlk
  · simp only [ne_eq, hs, not_false_eq_true, if_true] at hlk
    cases hbs : getPageBySlug st pd.slug with
    | some r =>
      rw [hbs] at hlk
      simp only [Option.some.injEq] at hlk
      subst hlk
      unfold getPageBySlug at hbs
      have hsl : r.slug = pd.slug := by
        have := List.find?_some hbs
        simpa using this
      exact ⟨List.mem_of_find?_eq_some hbs,
        Hslug hs r (List.mem_of_find?_eq_some hbs) hsl⟩
    | none =>
      rw [hbs] at hlk
      dsimp only at hlk
      unfold getPageByOrigin at hlk
      refine ⟨List.mem_of_find?_eq_some hlk, ?_⟩
      exact find?_pred (fun r => originIdent r PostOrigin.notion (removeDashes pd.id))
        st.rows rX hlk

/-- `find?` over a mapped list returns the image of the unique element
whose image satisfies the predicate, when every other element is left
fixed and fails the predicate. -/
theorem find?_map_unique {α : Type} (f : α → α) (p : α → Bool) (l : List α)
    (x : α) (hx : x ∈ l) (hfx : p (f x) = true)
    (hothers : ∀ y ∈ l, y ≠ x → f y = y ∧ p y = false) :
    (l.map f).find? p = some (f x) := by
  induction l with
  | nil => exact absurd hx (List.not_mem_nil x)
  | cons a l' ih =>
    by_cases ha : a = x
    · subst ha
      simp [List.find?, hfx]
    · obtain ⟨hfa, hpa⟩ := hothers a (List.mem_cons_self a l') ha
      have hx' : x ∈ l' := by
        rcases List.mem_cons.mp hx with h | h
        · exact absurd h.symm ha
        · exact h
      simp only [List.map_cons, List.find?, hfa, hpa]
      exact ih hx' (fun y hy hyx => hothers y (List.mem_cons_of_mem a hy) hyx)

/-- After the newer `syncPageData` persists a Notion-origin document —
whether by insert or by in-place update — the clean-page-id lookup finds
a row whose `last_edited_time` is the document's `lastEditedTime`.
The hypotheses say the store is well-formed: row ids are value-unique,
at most one row matches the document's natural key, and a row sharing the
document's (truthy) slug IS the natural-key row (the spec's acknowledged
slug-collision gap is excluded). -/
theorem getPageByIdB_after_write (now : Int) (st : StoreB)
    (pd : NotionPageData) (hpo : pd.postOrigin = PostOrigin.notion)
    (HidsU : ∀ a ∈ st.rows, ∀ b ∈ st.rows, a.id = b.id → a = b)
    (HkeyU : ∀ a ∈ st.rows, ∀ b ∈ st.rows,
      originIdent a PostOrigin.notion (removeDashes pd.id) = true →
      originIdent b PostOrigin.notion (removeDashes pd.id) = true → a = b)
    (Hslug : pd.slug ≠ "" → ∀ r ∈ st.rows, r.slug = pd.slug →
      originIdent r PostOrigin.notion (removeDashes pd.id) = true) :
    ∃ r, getPageByIdB (syncPageDataB now st pd) (removeDashes pd.id) = some r ∧
      r.last_edited_time = pd.lastEditedTime := by
  have happly : ∀ r0 : RowB,
      originIdent (applyRecordB now pd (removeDashes pd.id) r0)
        PostOrigin.notion (removeDashes pd.id) = true := by
    intro r0
    simp [applyRecordB, originIdent, hpo]
  unfold syncPageDataB
  cases hlk : lookupExistingB st pd with
  | none =>
    have hnone := lookupExistingB_none_origin st pd hpo hlk
    refine ⟨applyRecordB now pd (removeDashes pd.id) (blankRowB st.nextId now),
      ?_, rfl⟩
    unfold getPageByIdB getPageByOrigin
    dsimp only
    rw [List.find?_append]
    unfold getPageByIdB getPageByOrigin at hnone
    rw [hnone]
    simp [List.find?, happly]
  | some rX =>
    obtain ⟨hmemX, hpX⟩ := lookupExistingB_some_mem st pd rX hpo Hslug hlk
    refine ⟨applyRecordB now pd (removeDashes pd.id) rX, ?_, rfl⟩
    unfold getPageByIdB getPageByOrigin
    dsimp only
    have hstep := find?_map_unique
      (fun r => if r.id = rX.id then applyRecordB now pd (removeDashes pd.id) r else r)
      (fun r => originIdent r PostOrigin.notion (removeDashes pd.id))
      st.rows rX hmemX ?_ ?_
    · simpa using hstep
    · simp only [if_pos rfl]
      exact happly rX
    · intro y hy hyx
      constructor
      · have hid : ¬ y.id = rX.id := by
          intro hid
          exact hyx (HidsU y hy rX hmemX hid)
        simp [hid]
      · show originIdent y PostOrigin.notion (removeDashes pd.id) = false
        cases hpy : originIdent y PostOrigin.notion (removeDashes pd.id) with
        | false => rfl
        | true => exact absurd (HkeyU y hy rX hmemX hpy hpX) hyx

/-- C1: (i) on the Notion path, when an existing record is found under
the clean page id, the force flag is off and the incoming
`lastEditedTime` is not strictly greater, `syncPage` returns the skipped
"未更新" result with zero uploads, zero writes and an unchanged store;
(ii) the same staleness skip on the Obsidian path; (iii) idempotence:
a completed non-skipped run (insert or update, any force flag) leaves the
store in a state in which re-running the same unchanged document with the
force flag off is a pure no-op: the skipped result, the same store, zero
uploads and zero writes. -/
theorem C1_unchanged_sync_skips_and_is_idempotent :
    (∀ (env : SyncEnv) (st : StoreB) (pd : NotionPageData) (ex : RowB),
      pd.published = true →
      getPageByIdB st (removeDashes pd.id) = some ex →
      pd.lastEditedTime ≤ ex.last_edited_time →
      syncPageNew env st pd false =
        .ok { result := { success := true, pageId := pd.id
                          message := "跳过 (未更新)", imagesProcessed := 0
                          skipped := true }
              store := st, uploads := 0, writes := 0 }) ∧
    (∀ (f : ObsFile) (st : StoreB) (ex : RowB),
      f.frontMatter.slug ≠ "" →
      getPageByOrigin st PostOrigin.obsidian f.frontMatter.slug = some ex →
      f.gitLastEditedTime ≤ ex.last_edited_time →
      syncObsidianFile f st =
        .ok ({ success := true, pageId := ex.notion_page_id
               message := "文件未更新，跳过同步", imagesProcessed := 0
               skipped := true }, st, 0)) ∧
    (∀ (env env2 : SyncEnv) (st : StoreB) (pd : NotionPageData)
        (out : SyncOut) (force : Bool),
      (∀ a ∈ st.rows, ∀ b ∈ st.rows, a.id = b.id → a = b) →
      (∀ a ∈ st.rows, ∀ b ∈ st.rows,
        originIdent a PostOrigin.notion (removeDashes pd.id) = true →
        originIdent b PostOrigin.notion (removeDashes pd.id) = true → a = b) →
      (pd.slug ≠ "" → ∀ r ∈ st.rows, r.slug = pd.slug →
        originIdent r PostOrigin.notion (removeDashes pd.id) = true) →
      syncPageNew env st pd force = .ok out →
      out.result.skipped = false →
      syncPageNew env2 out.store pd false =
        .ok { result := { success := true, pageId := pd.id
                          message := "跳过 (未更新)", imagesProcessed := 0
                          skipped := true }
              store := out.store, uploads := 0, writes := 0 }) := by
  refine ⟨?_, ?_, ?_⟩
  · intro env st pd ex hpub hex hle
    unfold syncPageNew
    simp only [hpub]
    rw [hex]
    simp [hle]
  · intro f st ex hs hex hle
    unfold syncObsidianFile
    rw [if_neg hs, hex]
    dsimp only
    rw [if_pos hle]
  · intro env env2 st pd out force HidsU HkeyU Hslug hrun hns
    have hpub : pd.published = true := by
      cases hp : pd.published with
      | true => rfl
      | false =>
        unfold syncPageNew at hrun
        rw [hp] at hrun
        simp at hrun
        rw [← hrun] at hns
        simp at hns
    unfold syncPageNew at hrun
    simp only [hpub] at hrun
    have hbody : syncPageNewBody env st pd = .ok out := by
      cases hex : getPageByIdB st (removeDashes pd.id) with
      | none =>
        rw [hex] at hrun
        simpa using hrun
      | some ex =>
        rw [hex] at hrun
        rw [if_neg (by simp : ¬(true = false))] at hrun
        dsimp only at hrun
        by_cases hcond : force = false ∧ pd.lastEditedTime ≤ ex.last_edited_time
        · rw [if_pos hcond] at hrun
          simp only [ProcResult.ok.injEq] at hrun
          rw [← hrun] at hns
          simp at hns
        · rw [if_neg hcond] at hrun
          exact hrun
    unfold syncPageNewBody at hbody
    cases hpi : processImagesNew env.imgEnv (allImagesOf env pd) with
    | exit =>
      rw [hpi] at hbody
      exact absurd hbody (by simp)
    | ok pr =>
      obtain ⟨proc, ups⟩ := pr
      rw [hpi] at hbody
      simp only [ProcResult.ok.injEq] at hbody
      subst hbody
      obtain ⟨rstar, hfind, hlet⟩ :=
        getPageByIdB_after_write env.now st (finalPageDataNew env pd proc)
          rfl HidsU HkeyU Hslug
      have hfind2 : getPageByIdB (syncPageDataB env.now st
          (finalPageDataNew env pd proc)) (removeDashes pd.id) = some rstar := hfind
      have hle : pd.lastEditedTime ≤ rstar.last_edited_time := by
        rw [hlet]
        exact le_refl _
      unfold syncPageNew
      simp only [hpub]
      rw [hfind2]
      simp [hle]

/-- The C1 document: published, no images, empty slug. -/
def pdC1 : NotionPageData :=
  { id := "p-3", title := "T", content := "", createdTime := 1
    lastEditedTime := 10, slug := "", handler := "", published := true
    draft := false, archived := false, categories := [], tags := []
    excerpt := "", featuredImg := "", galleryImgs := []
    postOrigin := PostOrigin.notion, postType := "" }

/-- The outcome of the first C1 run against the empty store (the
fallback branch is unreachable). -/
def outC1 : SyncOut :=
  match syncPageNew syncEnvPlain emptyStoreB pdC1 false with
  | .ok o => o
  | .exit => { result := { success := false, pageId := "", message := ""
                           imagesProcessed := 0 }
               store := emptyStoreB, uploads := 0, writes := 0 }

/-- Witness for `C1_unchanged_sync_skips_and_is_idempotent` part (iii) at
a concrete first run: re-syncing the unchanged document is a no-op. -/
theorem C1_witness :
    syncPageNew syncEnvPlain outC1.store pdC1 false =
      .ok { result := { success := true, pageId := pdC1.id
                        message := "跳过 (未更新)", imagesProcessed := 0
                        skipped := true }
            store := outC1.store, uploads := 0, writes := 0 } :=
  C1_unchanged_sync_skips_and_is_idempotent.2.2 syncEnvPlain syncEnvPlain
    emptyStoreB pdC1 outC1 false
    (fun a ha => absurd ha (List.not_mem_nil a))
    (fun a ha => absurd ha (List.not_mem_nil a))
    (fun _ r hr => absurd hr (List.not_mem_nil r))
    rfl rfl

/-- Consuming a matched prefix and re-prepending it restores the input. -/
theorem listPre_drop_append (l : List Char) : ∀ s : List Char,
    listPre l s = true → l ++ s.drop l.length = s := by
  induction l with
  | nil => intro s _; simp
  | cons p ps ih =>
    intro s hp
    cases s with
    | nil => exact absurd hp (by simp [listPre])
    | cons c cs =>
      simp only [listPre, Bool.and_eq_true, decide_eq_true_eq] at hp
      obtain ⟨rfl, hps⟩ := hp
      simp only [List.cons_append, List.length_cons, List.drop_succ_cons]
      rw [ih cs hps]

/-- A literal prefix match survives appending a tail. -/
theorem listPre_mono (l x t : List Char) (h : listPre l x = true) :
    listPre l (x ++ t) = true := by
  induction l generalizing x with
  | nil => rfl
  | cons p ps ih =>
    cases x with
    | nil => exact absurd h (by simp [listPre])
    | cons c cs =>
      simp only [listPre, Bool.and_eq_true] at h
      simp only [List.cons_append, listPre, Bool.and_eq_true]
      exact ⟨h.1, ih cs h.2⟩

/-- The split is never empty and its first chunk is a prefix of the input. -/
theorem splitOnGo_first_chunk (l : List Char) : ∀ (fuel : Nat) (s : List Char),
    ∃ q qs t, splitOnGo l fuel s = q :: qs ∧ s = q ++ t := by
  intro fuel
  induction fuel with
  | zero =>
    intro s
    cases s with
    | nil => exact ⟨[], [], [], rfl, rfl⟩
    | cons c rest => exact ⟨c :: rest, [], [], rfl, by simp⟩
  | succ fuel ih =>
    intro s
    cases s with
    | nil => exact ⟨[], [], [], rfl, rfl⟩
    | cons c rest =>
      by_cases h : l ≠ [] ∧ listPre l (c :: rest) = true
      · exact ⟨[], splitOnGo l fuel ((c :: rest).drop l.length), c :: rest,
          by simp [splitOnGo, h], rfl⟩
      · obtain ⟨q, qs, t, hsplit, hq⟩ := ih rest
        refine ⟨c :: q, qs, t, ?_, by rw [hq]; rfl⟩
        simp only [splitOnGo, h, if_false]
        rw [hsplit]

/-- Unfolding the join over a cons of chunks. -/
theorem interAll_cons (sep : List Char) (p : List Char) (ps : List (List Char)) :
    interAll sep (p :: ps) =
      p ++ (match ps with
            | [] => []
            | _ :: _ => sep ++ interAll sep ps) := by
  cases ps with
  | nil => simp [interAll]
  | cons q qs => simp [interAll]

/-- The global literal replacement equals splitting at the pattern and
re-joining with the replacement: every occurrence is replaced. -/
theorem replAllGo_eq_interAll (l u : List Char) :
    ∀ (fuel : Nat) (s : List Char),
      replAllGo l u fuel s = interAll u (splitOnGo l fuel s) := by
  intro fuel
  induction fuel with
  | zero =>
    intro s
    cases s with
    | nil => rfl
    | cons c rest => rfl
  | succ fuel ih =>
    intro s
    cases s with
    | nil => rfl
    | cons c rest =>
      by_cases h : l ≠ [] ∧ listPre l (c :: rest) = true
      · simp only [replAllGo, splitOnGo, if_pos h]
        obtain ⟨q, qs, t, hsplit, _⟩ :=
          splitOnGo_first_chunk l fuel ((c :: rest).drop l.length)
        rw [ih ((c :: rest).drop l.length), hsplit, interAll_cons, interAll_cons]
        rw [← interAll_cons]
        simp
      · simp only [replAllGo, splitOnGo, if_neg h]
        obtain ⟨q, qs, t, hsplit, _⟩ := splitOnGo_first_chunk l fuel rest
        rw [ih rest, hsplit, interAll_cons, interAll_cons]
        cases qs with
        | nil => rfl
        | cons q2 qs2 => rfl

/-- Re-joining the split chunks with the pattern itself reconstructs the
input exactly, so the chunks carry all the text outside the replaced
occurrences character for character. -/
theorem interAll_splitOnGo_self (l : List Char) :
    ∀ (fuel : Nat) (s : List Char),
      interAll l (splitOnGo l fuel s) = s := by
  intro fuel
  induction fuel with
  | zero =>
    intro s
    cases s with
    | nil => rfl
    | cons c rest => rfl
  | succ fuel ih =>
    intro s
    cases s with
    | nil => rfl
    | cons c rest =>
      by_cases h : l ≠ [] ∧ listPre l (c :: rest) = true
      · simp only [splitOnGo, if_pos h]
        obtain ⟨q, qs, t, hsplit, _⟩ :=
          splitOnGo_first_chunk l fuel ((c :: rest).drop l.length)
        have hrec := ih ((c :: rest).drop l.length)
        rw [hsplit] at hrec
        rw [hsplit, interAll_cons]
        dsimp only
        rw [List.nil_append, hrec]
        exact listPre_drop_append l (c :: rest) h.2
      · simp only [splitOnGo, if_neg h]
        obtain ⟨q, qs, t, hsplit, _⟩ := splitOnGo_first_chunk l fuel rest
        have hrec := ih rest
        rw [hsplit] at hrec ⊢
        rw [interAll_cons] at hrec ⊢
        cases qs with
        | nil => simpa using hrec
        | cons q2 qs2 => simpa using hrec

/-- A non-empty pattern does not occur in the empty string. -/
theorem occursB_nil_of_ne (l : List Char) (hl : l ≠ []) : occursB l [] = false := by
  cases l with
  | nil => exact absurd rfl hl
  | cons c cs => rfl

/-- No chunk of the split contains an occurrence of the pattern: the scan
replaces every occurrence, leaving none behind. -/
theorem splitOnGo_chunks_free (l : List Char) (hl : l ≠ []) :
    ∀ (fuel : Nat) (s : List Char), s.length ≤ fuel →
      ∀ p ∈ splitOnGo l fuel s, occursB l p = false := by
  intro fuel
  induction fuel with
  | zero =>
    intro s hs p hp
    cases s with
    | nil =>
      rcases List.mem_singleton.mp hp with rfl
      exact occursB_nil_of_ne l hl
    | cons c rest => simp at hs
  | succ fuel ih =>
    intro s hs p hp
    cases s with
    | nil =>
      rcases List.mem_singleton.mp hp with rfl
      exact occursB_nil_of_ne l hl
    | cons c rest =>
      by_cases h : l ≠ [] ∧ listPre l (c :: rest) = true
      · rw [splitOnGo, if_pos h] at hp
        rcases List.mem_cons.mp hp with rfl | hp2
        · exact occursB_nil_of_ne l hl
        · have hlen : ((c :: rest).drop l.length).length ≤ fuel := by
            have hl1 : 0 < l.length := List.length_pos.mpr hl
            simp only [List.length_drop, List.length_cons]
            simp only [List.length_cons] at hs
            omega
          exact ih ((c :: rest).drop l.length) hlen p hp2
      · rw [splitOnGo, if_neg h] at hp
        obtain ⟨q, qs, t, hsplit, hqt⟩ := splitOnGo_first_chunk l fuel rest
        rw [hsplit] at hp
        have hlen : rest.length ≤ fuel := by
          simp only [List.length_cons] at hs
          omega
        have hnp : listPre l (c :: rest) = false := by
          cases hx : listPre l (c :: rest) with
          | false => rfl
          | true => exact absurd ⟨hl, hx⟩ h
        rcases List.mem_cons.mp hp with rfl | hp2
        · -- p = c :: q, the first chunk
          have hqfree : occursB l q = false :=
            ih rest hlen q (by rw [hsplit]; exact List.mem_cons_self q qs)
          have hpre : listPre l (c :: q) = false := by
            cases hx : listPre l (c :: q) with
            | false => rfl
            | true =>
              have hmono : listPre l ((c :: q) ++ t) = true :=
                listPre_mono l (c :: q) t hx
              rw [List.cons_append, ← hqt] at hmono
              rw [hmono] at hnp
              exact absurd hnp (by simp)
          simp [occursB, hpre, hqfree]
        · exact ih rest hlen p (by rw [hsplit]; exact List.mem_cons_of_mem q hp2)

/-- Key membership after a Map.set: the old keys plus the new one. -/
theorem mapHasKey_mapSet_iff (m : List (String × String)) (k0 v k : String) :
    mapHasKey (mapSet m k0 v) k = true ↔ (mapHasKey m k = true ∨ k = k0) := by
  unfold mapSet mapHasKey
  by_cases h : m.any (fun p => p.fst = k0) = true
  · rw [if_pos h]
    simp only [List.any_map, List.any_eq_true, Function.comp] at h ⊢
    constructor
    · rintro ⟨p, hp, hpk⟩
      by_cases hp0 : p.fst = k0
      · simp only [if_pos hp0, decide_eq_true_eq] at hpk
        right
        exact hpk.symm
      · simp only [if_neg hp0] at hpk
        left
        exact ⟨p, hp, hpk⟩
    · rintro (⟨p, hp, hpk⟩ | hk)
      · simp only [decide_eq_true_eq] at hpk
        refine ⟨p, hp, ?_⟩
        by_cases hp0 : p.fst = k0
        · simp only [if_pos hp0, decide_eq_true_eq]
          rw [← hpk, hp0]
        · simp only [if_neg hp0, decide_eq_true_eq]
          exact hpk
      · obtain ⟨p, hp, hp0⟩ := h
        simp only [decide_eq_true_eq] at hp0
        refine ⟨p, hp, ?_⟩
        simp only [if_pos hp0, decide_eq_true_eq]
        exact hk.symm
  · rw [if_neg h]
    simp only [List.any_append, List.any_eq_true, Bool.or_eq_true]
    constructor
    · rintro (⟨p, hp, hpk⟩ | ⟨p, hp, hpk⟩)
      · left; exact ⟨p, hp, hpk⟩
      · rcases List.mem_singleton.mp hp with rfl
        simp only [decide_eq_true_eq] at hpk
        right
        exact hpk.symm
    · rintro (⟨p, hp, hpk⟩ | hk)
      · left; exact ⟨p, hp, hpk⟩
      · right
        exact ⟨(k0, v), List.mem_singleton.mpr rfl, by simp [hk.symm]⟩

/-- Key membership after one step of the createImageMappings fold. -/
theorem cim_step_key (k : String) (acc : List (String × String)) (img : AniviaImage) :
    mapHasKey
      (match img.cloudflareUrl with
        | some cf =>
          if cf ≠ "" then
            let m1 := mapSet acc img.url cf
            if img.originalUrl ≠ "" ∧ img.originalUrl ≠ img.url then
              mapSet m1 img.originalUrl cf
            else m1
          else acc
        | none => acc) k = true ↔
    (mapHasKey acc k = true ∨
      (optTruthy img.cloudflareUrl = true ∧
        (k = img.url ∨ (img.originalUrl ≠ "" ∧ img.originalUrl ≠ img.url ∧ k = img.originalUrl)))) := by
  cases hcf : img.cloudflareUrl with
  | none =>
    simp [optTruthy]
  | some cf =>
    by_cases hne : cf = ""
    · subst hne
      simp [optTruthy]
    · dsimp only
      rw [if_pos (by exact hne : cf ≠ "")]
      by_cases horig : img.originalUrl ≠ "" ∧ img.originalUrl ≠ img.url
      · rw [if_pos horig]
        rw [mapHasKey_mapSet_iff, mapHasKey_mapSet_iff]
        simp only [optTruthy, decide_eq_true_eq]
        constructor
        · rintro ((h | h) | h)
          · exact Or.inl h
          · exact Or.inr ⟨hne, Or.inl h⟩
          · exact Or.inr ⟨hne, Or.inr ⟨horig.1, horig.2, h⟩⟩
        · rintro (h | ⟨-, (h | ⟨_, _, h⟩)⟩)
          · exact Or.inl (Or.inl h)
          · exact Or.inl (Or.inr h)
          · exact Or.inr h
      · rw [if_neg horig]
        rw [mapHasKey_mapSet_iff]
        simp only [optTruthy, decide_eq_true_eq]
        constructor
        · rintro (h | h)
          · exact Or.inl h
          · exact Or.inr ⟨hne, Or.inl h⟩
        · rintro (h | ⟨-, (h | ⟨h1, h2, h⟩)⟩)
          · exact Or.inl h
          · exact Or.inr h
          · exact absurd ⟨h1, h2⟩ horig

/-- Key membership in the createImageMappings fold from any accumulator:
exactly the accumulator keys plus url (and a differing non-empty
originalUrl) of every image with a truthy cloudflareUrl. -/
theorem createImageMappings_go_key (k : String) :
    ∀ (imgs : List AniviaImage) (acc : List (String × String)),
      mapHasKey
        (imgs.foldl
          (fun imageMap img =>
            match img.cloudflareUrl with
            | some cf =>
              if cf ≠ "" then
                let m1 := mapSet imageMap img.url cf
                if img.originalUrl ≠ "" ∧ img.originalUrl ≠ img.url then
                  mapSet m1 img.originalUrl cf
                else m1
              else imageMap
            | none => imageMap) acc) k = true ↔
        (mapHasKey acc k = true ∨
          ∃ img ∈ imgs, optTruthy img.cloudflareUrl = true ∧
            (k = img.url ∨ (img.originalUrl ≠ "" ∧ img.originalUrl ≠ img.url ∧ k = img.originalUrl))) := by
  intro imgs
  induction imgs with
  | nil =>
    intro acc
    simp
  | cons img rest ih =>
    intro acc
    rw [List.foldl_cons, ih, cim_step_key]
    simp only [List.mem_cons]
    constructor
    · rintro ((h | h) | ⟨i, hi, hC⟩)
      · exact Or.inl h
      · exact Or.inr ⟨img, Or.inl rfl, h⟩
      · exact Or.inr ⟨i, Or.inr hi, hC⟩
    · rintro (h | ⟨i, (rfl | hi), hC⟩)
      · exact Or.inl (Or.inl h)
      · exact Or.inl (Or.inr hC)
      · exact Or.inr ⟨i, hi, hC⟩

/-- A non-empty string has a non-empty character list. -/
theorem str_data_ne_nil (l : String) (h : l ≠ "") : l.data ≠ [] := by
  intro hd
  apply h
  cases l with
  | mk d =>
    simp only at hd
    subst hd
    rfl

/-- Successfully resolved image: locator `ab`, resolved URL `z`. -/
def imgC6ok : AniviaImage :=
  { url := "ab", originalUrl := "ab", hash := "h1",
    cloudflareUrl := some "z", type := ImageType.markdown,
    source := ImageSource.notion }

/-- Failed-resolution image: locator `abc`, no resolved URL. -/
def imgC6bad : AniviaImage :=
  { url := "abc", originalUrl := "abc", hash := "h2",
    cloudflareUrl := none, type := ImageType.markdown,
    source := ImageSource.notion }

/-- C6: the URL-rewrite step builds its locator-to-resolvedUrl map exactly
from the images whose cloudflareUrl is truthy — keyed by url, and
additionally by originalUrl when that is non-empty and differs — and
rewriting a mapped locator replaces every occurrence, not just the first:
the output is the body split at the locator and re-joined with the
resolved URL, re-joining the same chunks with the locator reconstructs
the body (so all text outside the replaced occurrences is unchanged), and
no chunk still contains the locator.  The spec claim that an unmapped
(failed-resolution) locator is always left character-for-character
unchanged does not hold: a mapped locator occurring as a substring of an
unmapped one rewrites that part of it (see the counterexample). -/
theorem C6_rewrite_map_and_substitution :
    (∀ (imgs : List AniviaImage) (k : String),
      mapHasKey (createImageMappings imgs) k = true ↔
        ∃ img ∈ imgs, optTruthy img.cloudflareUrl = true ∧
          (k = img.url ∨ (img.originalUrl ≠ "" ∧ img.originalUrl ≠ img.url ∧
            k = img.originalUrl))) ∧
    (∀ (body l u : String), l ≠ "" →
      replaceImageUrlsInMarkdown body [(l, u)] =
          ⟨interAll u.data (splitOnL l.data body.data)⟩ ∧
        (⟨interAll l.data (splitOnL l.data body.data)⟩ : String) = body ∧
        ∀ p ∈ splitOnL l.data body.data, occursB l.data p = false) := by
  constructor
  · intro imgs k
    rw [show createImageMappings imgs = imgs.foldl
      (fun imageMap img =>
        match img.cloudflareUrl with
        | some cf =>
          if cf ≠ "" then
            let m1 := mapSet imageMap img.url cf
            if img.originalUrl ≠ "" ∧ img.originalUrl ≠ img.url then
              mapSet m1 img.originalUrl cf
            else m1
          else imageMap
        | none => imageMap) [] from rfl]
    rw [createImageMappings_go_key]
    simp [mapHasKey]
  · intro body l u hl
    refine ⟨?_, ?_, ?_⟩
    · show replAll l u body = _
      unfold replAll splitOnL
      rw [replAllGo_eq_interAll]
    · show String.mk (interAll l.data (splitOnGo l.data body.data.length body.data)) = body
      rw [interAll_splitOnGo_self]
    · exact splitOnGo_chunks_free l.data (str_data_ne_nil l hl)
        body.data.length body.data (Nat.le_refl _)

/-- C6 counterexample: with a resolved image of locator ab and a failed
image of locator abc, the map contains only ab, yet rewriting the body
abc — a single occurrence of the unmapped locator — yields zc, in which
the unmapped locator abc no longer occurs at all: a failed-resolution
locator is not always left character-for-character unchanged. -/
theorem C6_counterexample :
    createImageMappings [imgC6ok, imgC6bad] = [("ab", "z")] ∧
    mapHasKey (createImageMappings [imgC6ok, imgC6bad]) "abc" = false ∧
    replaceImageUrlsInMarkdown "abc" (createImageMappings [imgC6ok, imgC6bad]) = "zc" ∧
    occursB "abc".data "zc".data = false := by
  refine ⟨rfl, rfl, rfl, rfl⟩

/-- C6 witness: the substitution part applied at body xabyab, locator ab,
replacement z, evaluated to xzyz — both occurrences replaced. -/
theorem C6_witness :
    replaceImageUrlsInMarkdown "xabyab" [("ab", "z")] = "xzyz" := by
  have h := C6_rewrite_map_and_substitution.2 "xabyab" "ab" "z" (by decide)
  rw [h.1]
  rfl
